import Mathlib

/-!
# Verification of the session manager (`matrix_sdk_crypto/src/session_manager.rs`)

This file gives a shallow embedding of the session-lifecycle core: the
missing-session scan (`get_missing_sessions`), the claim-response handler
(`receive_keys_claim_response`), the wedging evaluation
(`mark_device_as_wedged`) and the unwedging step (`check_if_unwedged`),
together with proofs of the behavioural properties claimed for them.

External collaborators that the source consumes only through interfaces
(the `Store`, the `Account`, the `Device` capabilities and the key-retry
notification) are modelled as explicit data with failure knobs, following
the specification's interface descriptions; each such definition is marked
`Modelled from the spec:` in its doc comment.

Rust's `BTreeMap` is modelled as an association list kept sorted by key via
`btInsert`; `DashMap<_, DashSet<_>>` structures are modelled as association
lists of member lists; `Uuid::new_v4` (fresh unique request ids) is
modelled as a monotone counter carried in the manager state, so distinct
allocations yield distinct ids.  Wall-clock time is passed explicitly as a
`now : Nat` parameter; `Instant::elapsed` becomes truncated subtraction.
-/

/-! ## Identifier and protocol types

User ids, device ids and public-key strings are opaque identifiers to the
session manager; all it ever does with them is compare them for equality and
order them (the `BTreeMap` key order, which for the implementation's string
types is the lexicographic order).  They are modelled as atoms carrying a
total order: natural numbers. -/

abbrev UserId := Nat

abbrev DeviceId := Nat

abbrev CurveKey := Nat

abbrev Uuid := Nat

/-- Opaque claimed one-time-key material (the `key_map` of one claim-response
entry); only its validity under the account's signature check matters. -/
abbrev KeyMap := Nat

deriving instance DecidableEq for Except

inductive DeviceKeyAlgorithm where
  | Ed25519
  | Curve25519
  | SignedCurve25519
  deriving DecidableEq, Repr

inductive EventType where
  | Dummy
  | RoomEncrypted
  deriving DecidableEq, Repr

/-- The payload handed to `Device::encrypt`; the code only ever encrypts the
empty dummy payload `json!({})`. -/
inductive Payload where
  | emptyObject
  deriving DecidableEq, Repr

inductive StoreError where
  | storage
  deriving DecidableEq, Repr

inductive OlmError where
  | store (e : StoreError)
  | missingSession
  | cryptoValidation
  deriving DecidableEq, Repr

/-- One established Olm session: compared only by creation time, stored and
looked up under the remote device's Curve25519 identity key. -/
structure Session where
  sender_key : CurveKey
  creation_time : Nat
  deriving DecidableEq, Repr

/-- A remote device: user id, device id and a map from key algorithm to
public key material. -/
structure Device where
  user_id : UserId
  device_id : DeviceId
  keys : List (DeviceKeyAlgorithm × CurveKey)
  deriving DecidableEq, Repr

def Device.get_key (d : Device) (alg : DeviceKeyAlgorithm) : Option CurveKey :=
  (d.keys.find? (fun p => decide (p.1 = alg))).map (fun p => p.2)

/-- An opaque ciphertext produced by `Device::encrypt`: it records the event
type, the payload and the device it was encrypted for. -/
structure Ciphertext where
  event_type : EventType
  payload : Payload
  recipient : UserId
  recipient_device : DeviceId
  deriving DecidableEq, Repr

inductive DeviceIdOrAllDevices where
  | deviceId (id : DeviceId)
  | allDevices
  deriving DecidableEq, Repr

structure ToDeviceRequest where
  event_type : EventType
  txn_id : Uuid
  messages : List (UserId × List (DeviceIdOrAllDevices × Ciphertext))
  deriving DecidableEq, Repr

structure OutgoingRequest where
  request_id : Uuid
  request : ToDeviceRequest
  deriving DecidableEq, Repr

/-- The missing-session map `user -> device -> required key algorithm`
(a `BTreeMap<UserId, BTreeMap<DeviceIdBox, DeviceKeyAlgorithm>>`). -/
abbrev MMap := List (UserId × List (DeviceId × DeviceKeyAlgorithm))

structure KeysClaimRequest where
  timeout : Option Nat
  one_time_keys : MMap
  deriving DecidableEq, Repr

/-- A claimed-keys response: `failures` is carried but never read by the
handler (the source has a TODO to log it). -/
structure KeysClaimResponse where
  failures : List UserId
  one_time_keys : List (UserId × List (DeviceId × KeyMap))
  deriving DecidableEq, Repr

/-! ## Sorted association lists (the `BTreeMap` model) -/

def btLookup [DecidableEq α] (k : α) : List (α × β) → Option β
  | [] => none
  | (a, b) :: rest => if k = a then some b else btLookup k rest

def btInsert [LinearOrder α] (k : α) (v : β) : List (α × β) → List (α × β)
  | [] => [(k, v)]
  | (a, b) :: rest =>
    if k < a then (k, v) :: (a, b) :: rest
    else if k = a then (k, v) :: rest
    else (a, b) :: btInsert k v rest

/-- Lookup in a two-level map. -/
def lookup2 [DecidableEq α] [DecidableEq β] (m : List (α × List (β × γ)))
    (k : α) (k' : β) : Option γ :=
  match btLookup k m with
  | none => none
  | some inner => btLookup k' inner

/-- `missing.entry(user).or_insert_with(BTreeMap::new).insert(device,
SignedCurve25519)`: every insertion the scan performs has this shape. -/
def addPair (u : UserId) (d : DeviceId) (m : MMap) : MMap :=
  btInsert u (btInsert d DeviceKeyAlgorithm.SignedCurve25519 ((btLookup u m).getD [])) m

/-! ## `DashMap<UserId, DashSet<DeviceIdBox>>` model -/

abbrev PairMap := List (UserId × List DeviceId)

def pairMapContains (w : PairMap) (u : UserId) (d : DeviceId) : Bool :=
  match btLookup u w with
  | none => false
  | some ds => decide (d ∈ ds)

/-- `map.entry(u).or_insert_with(DashSet::new).insert(d)`. -/
def pairMapInsert (w : PairMap) (u : UserId) (d : DeviceId) : PairMap :=
  let ds := (btLookup u w).getD []
  btInsert u (if d ∈ ds then ds else d :: ds) w

/-- `map.get(u).map(|s| s.remove(d)).flatten().is_some()`: returns whether the
pair was present, together with the updated map (removal is a set removal). -/
def pairMapRemove (w : PairMap) (u : UserId) (d : DeviceId) : Bool × PairMap :=
  match btLookup u w with
  | none => (false, w)
  | some ds =>
    if d ∈ ds then (true, btInsert u (ds.filter (fun x => decide (x ≠ d))) w)
    else (false, w)

/-! ## The Store (external collaborator)

Modelled from the spec: the Store is an async key-value abstraction offering
`devices_for(user)`, `device_by(user, device_id)`,
`device_by_identity_key(identity_key)`, `sessions_for(identity_key)` and
`persist(sessions)`; any of its I/O operations may fail with a
`StorageError`.  Device records and per-identity-key session lists are the
stored data; the `failing_*` fields select which calls error, so that the
error-handling claims can be exercised. -/

structure Store where
  devices : List Device
  sessions : List (CurveKey × List Session)
  failing_users : List UserId
  failing_session_keys : List CurveKey
  failing_device_lookups : List (UserId × DeviceId)
  failing_save_keys : List CurveKey
  deriving DecidableEq, Repr

/-- All devices of a user, in store order. -/
def Store.user_devices (s : Store) (u : UserId) : List Device :=
  s.devices.filter (fun d => decide (d.user_id = u))

/-- Modelled from the spec: `devices_for(user)` (`Store::get_user_devices`). -/
def Store.get_user_devices (s : Store) (u : UserId) :
    Except StoreError (List Device) :=
  if u ∈ s.failing_users then .error .storage else .ok (s.user_devices u)

/-- Modelled from the spec: `sessions_for(identity_key)`
(`Store::get_sessions`); `none` means no session list was ever created for
that key. -/
def Store.get_sessions (s : Store) (k : CurveKey) :
    Except StoreError (Option (List Session)) :=
  if k ∈ s.failing_session_keys then .error .storage
  else .ok (btLookup k s.sessions)

def Store.lookup_device (s : Store) (u : UserId) (d : DeviceId) : Option Device :=
  s.devices.find? (fun dev => decide (dev.user_id = u ∧ dev.device_id = d))

/-- Modelled from the spec: `device_by(user, device_id)`
(`Store::get_readonly_device`). -/
def Store.get_readonly_device (s : Store) (u : UserId) (d : DeviceId) :
    Except StoreError (Option Device) :=
  if (u, d) ∈ s.failing_device_lookups then .error .storage
  else .ok (s.lookup_device u d)

/-- Modelled from the spec: `Store::get_device` performs the same lookup as
`get_readonly_device` (it merely wraps the record with capabilities). -/
def Store.get_device (s : Store) (u : UserId) (d : DeviceId) :
    Except StoreError (Option Device) :=
  s.get_readonly_device u d

/-- Modelled from the spec: `device_by_identity_key`
(`Store::get_device_from_curve_key`): among the user's devices, the one
whose Curve25519 identity key matches. -/
def Store.get_device_from_curve_key (s : Store) (u : UserId) (k : CurveKey) :
    Except StoreError (Option Device) :=
  match s.get_user_devices u with
  | .error e => .error e
  | .ok devs =>
    .ok (devs.find? (fun dev => decide (dev.get_key .Curve25519 = some k)))

/-- Modelled from the spec: `persist(sessions)` (`Store::save_sessions`):
each session is appended to the list stored under its own sender (identity)
key; a persistence failure leaves the store unchanged. -/
def Store.save_sessions (s : Store) (ss : List Session) :
    Except StoreError Store :=
  if ss.any (fun sess => sess.sender_key ∈ s.failing_save_keys) then .error .storage
  else
    .ok { s with
          sessions :=
            ss.foldl
              (fun m sess =>
                btInsert sess.sender_key (((btLookup sess.sender_key m).getD []) ++ [sess]) m)
              s.sessions }

/-! ## The Account and the Device encrypt capability (external) -/

/-- Modelled from the spec: the Account holds the local long-term keys; the
only aspect visible to this core is which claimed one-time keys pass its
signature/key validation. -/
structure Account where
  invalid_keys : List KeyMap
  deriving DecidableEq, Repr

/-- Modelled from the spec: `create_outbound_session(device,
claimed_key_material) -> Session`, failing with a cryptographic-validation
error on bad signatures/keys or when the device has no Curve25519 identity
key to ratchet against; the produced session is bound to the device's
identity key and stamped with the current time. -/
def Account.create_outbound_session (a : Account) (now : Nat) (device : Device)
    (key : KeyMap) : Except OlmError Session :=
  if key ∈ a.invalid_keys then .error .cryptoValidation
  else
    match device.get_key .Curve25519 with
    | none => .error .cryptoValidation
    | some k => .ok { sender_key := k, creation_time := now }

/-- Modelled from the spec: `Device::encrypt(event_type, payload)` uses the
device's best current session internally: it looks the session list up under
the device's identity key and fails with a missing-session error when the
device has no identity key or no session; a Store failure during the lookup
propagates. -/
def Device.encrypt (store : Store) (device : Device) (etype : EventType)
    (payload : Payload) : Except OlmError Ciphertext :=
  match device.get_key .Curve25519 with
  | none => .error .missingSession
  | some k =>
    match store.get_sessions k with
    | .error e => .error (.store e)
    | .ok none => .error .missingSession
    | .ok (some []) => .error .missingSession
    | .ok (some (_ :: _)) =>
      .ok { event_type := etype, payload := payload,
            recipient := device.user_id, recipient_device := device.device_id }

/-! ## The session manager state -/

structure SessionManagerState where
  account : Account
  store : Store
  users_for_key_claim : PairMap
  wedged_devices : PairMap
  outgoing_to_device_requests : List (Uuid × OutgoingRequest)
  uuid_counter : Nat
  /-- Modelled from the spec: the fire-and-forget notifications handed to the
  key-retry subsystem (`KeyRequestMachine::retry_keyshare`), recorded but
  never read back by this core. -/
  notifications : List (UserId × DeviceId)
  deriving DecidableEq, Repr

def KEY_CLAIM_TIMEOUT : Nat := 10

def UNWEDGING_INTERVAL : Nat := 60 * 60

/-- `SessionManager::mark_outgoing_request_as_sent`. -/
def mark_outgoing_request_as_sent (st : SessionManagerState) (id : Uuid) :
    SessionManagerState :=
  { st with
    outgoing_to_device_requests :=
      st.outgoing_to_device_requests.filter (fun p => decide (p.1 ≠ id)) }

/-- Session order used by `sessions.sort_by_key(|s| s.creation_time)`. -/
def sessLe (a b : Session) : Prop := a.creation_time ≤ b.creation_time

instance : DecidableRel sessLe :=
  fun a b => Nat.decLe a.creation_time b.creation_time

instance : IsTotal Session sessLe :=
  ⟨fun a b => Nat.le_total a.creation_time b.creation_time⟩

instance : IsTrans Session sessLe :=
  ⟨fun _ _ _ hab hbc => Nat.le_trans hab hbc⟩

def sortSessions (l : List Session) : List Session :=
  List.insertionSort sessLe l

/-- `SessionManager::mark_device_as_wedged`: resolve the device by identity
key, sort its (shared, lock-protected) session list in place ascending by
creation time, and flag the pair as wedged when the oldest session's age
exceeds the unwedging interval.  The in-place sort is modelled by writing
the sorted list back into the store.  (`Device::get_sessions` is inlined:
modelled from the spec, it reads the device's Curve25519 key and looks the
session list up under it, yielding no list when the key is absent.) -/
def mark_device_as_wedged (now : Nat) (st : SessionManagerState)
    (sender : UserId) (curve_key : CurveKey) :
    Except StoreError SessionManagerState :=
  match st.store.get_device_from_curve_key sender curve_key with
  | .error e => .error e
  | .ok none => .ok st
  | .ok (some device) =>
    match device.get_key .Curve25519 with
    | none => .ok st
    | some k =>
      match st.store.get_sessions k with
      | .error e => .error e
      | .ok none => .ok st
      | .ok (some sessions) =>
        let sorted := sortSessions sessions
        let st' := { st with store := { st.store with sessions := btInsert k sorted st.store.sessions } }
        match sorted.head? with
        | none => .ok st'
        | some session =>
          if UNWEDGING_INTERVAL < now - session.creation_time then
            .ok { st' with
                  wedged_devices :=
                    pairMapInsert st'.wedged_devices device.user_id device.device_id }
          else .ok st'

/-- `SessionManager::is_device_wedged`. -/
def is_device_wedged (st : SessionManagerState) (device : Device) : Bool :=
  pairMapContains st.wedged_devices device.user_id device.device_id

/-- `SessionManager::check_if_unwedged`: remove the pair from the wedged set
(if present), and if it was present fetch the device, encrypt a dummy
payload for it and queue a to-device request under a fresh id.  Errors after
the removal leave the removal in place; the mutated state is returned
alongside the result. -/
def check_if_unwedged (st : SessionManagerState) (u : UserId) (d : DeviceId) :
    Except OlmError Unit × SessionManagerState :=
  match pairMapRemove st.wedged_devices u d with
  | (false, _) => (.ok (), st)
  | (true, wedged') =>
    let st1 := { st with wedged_devices := wedged' }
    match st1.store.get_device u d with
    | .error e => (.error (.store e), st1)
    | .ok none => (.ok (), st1)
    | .ok (some device) =>
      match Device.encrypt st1.store device .Dummy .emptyObject with
      | .error e => (.error e, st1)
      | .ok content =>
        let id := st1.uuid_counter
        let request : OutgoingRequest :=
          { request_id := id,
            request :=
              { event_type := .RoomEncrypted, txn_id := id,
                messages := [(device.user_id, [(.deviceId device.device_id, content)])] } }
        (.ok (),
          { st1 with
            uuid_counter := st1.uuid_counter + 1,
            outgoing_to_device_requests :=
              btInsert id request st1.outgoing_to_device_requests })

/-! ## The missing-session scan -/

/-- The inner device loop of `get_missing_sessions` (lines 196-220): skip
devices without a Curve25519 identity key, look the session list up under
the key, and record the pair as missing when the list is absent or empty. -/
def scan_devices (store : Store) (user_id : UserId) :
    List Device → MMap → Except StoreError MMap
  | [], missing => .ok missing
  | device :: rest, missing =>
    match device.get_key .Curve25519 with
    | none => scan_devices store user_id rest missing
    | some sender_key =>
      match store.get_sessions sender_key with
      | .error e => .error e
      | .ok sessionsOpt =>
        let is_missing :=
          match sessionsOpt with
          | some ss => ss.isEmpty
          | none => true
        if is_missing then
          scan_devices store user_id rest (addPair user_id device.device_id missing)
        else scan_devices store user_id rest missing

/-- The outer user loop of `get_missing_sessions` (lines 193-221). -/
def scan_users (store : Store) : List UserId → MMap → Except StoreError MMap
  | [], missing => .ok missing
  | u :: rest, missing =>
    match store.get_user_devices u with
    | .error e => .error e
    | .ok devices =>
      match scan_devices store u devices missing with
      | .error e => .error e
      | .ok missing' => scan_users store rest missing'

/-- The pending-claim union of `get_missing_sessions` (lines 225-234): every
pair of `users_for_key_claim` is added unconditionally. -/
def add_key_claims (pending : PairMap) (missing : MMap) : MMap :=
  pending.foldl (fun m p => p.2.foldl (fun m d => addPair p.1 d m) m) missing

def compute_missing (store : Store) (pending : PairMap) (users : List UserId) :
    Except StoreError MMap :=
  match scan_users store users [] with
  | .error e => .error e
  | .ok m => .ok (add_key_claims pending m)

/-- `SessionManager::get_missing_sessions`: build the missing map, return
`none` when it is empty, otherwise a fresh request id with the map and the
fixed 10-second timeout. -/
def get_missing_sessions (st : SessionManagerState) (users : List UserId) :
    Except StoreError (Option (Uuid × KeysClaimRequest) × SessionManagerState) :=
  match compute_missing st.store st.users_for_key_claim users with
  | .error e => .error e
  | .ok missing =>
    if missing.isEmpty then .ok (none, st)
    else
      .ok (some (st.uuid_counter,
                 { timeout := some KEY_CLAIM_TIMEOUT, one_time_keys := missing }),
           { st with uuid_counter := st.uuid_counter + 1 })

/-! ## The claim-response handler -/

/-- One `(user, device, key_map)` entry of `receive_keys_claim_response`
(lines 257-301): fetch the device (skip on error/absence), create the
outbound session (skip on failure), persist it (skip on failure), notify
the key-retry subsystem, then run the unwedging check (its error is only
logged). -/
def receive_entry (now : Nat) (st : SessionManagerState) (user_id : UserId)
    (device_id : DeviceId) (key : KeyMap) : SessionManagerState :=
  match st.store.get_readonly_device user_id device_id with
  | .error _ => st
  | .ok none => st
  | .ok (some device) =>
    match st.account.create_outbound_session now device key with
    | .error _ => st
    | .ok session =>
      match st.store.save_sessions [session] with
      | .error _ => st
      | .ok store' =>
        let st1 := { st with store := store',
                             notifications := st.notifications ++ [(user_id, device_id)] }
        (check_if_unwedged st1 user_id device_id).2

def receive_devices (now : Nat) (u : UserId) :
    SessionManagerState → List (DeviceId × KeyMap) → SessionManagerState
  | st, [] => st
  | st, (d, key) :: rest => receive_devices now u (receive_entry now st u d key) rest

def receive_users (now : Nat) :
    SessionManagerState → List (UserId × List (DeviceId × KeyMap)) → SessionManagerState
  | st, [] => st
  | st, p :: rest => receive_users now (receive_devices now p.1 st p.2) rest

def receive_state (now : Nat) (st : SessionManagerState)
    (resp : KeysClaimResponse) : SessionManagerState :=
  receive_users now st resp.one_time_keys

/-- `SessionManager::receive_keys_claim_response`: every per-entry error is
caught inside the loop, so the handler as a whole always returns `Ok(())`;
the final manager state is the fold of the per-entry steps. -/
def receive_keys_claim_response (now : Nat) (st : SessionManagerState)
    (resp : KeysClaimResponse) : Except OlmError SessionManagerState :=
  .ok (receive_state now st resp)

/-! ## Predicates used in the claim statements -/

/-- A device is "missing a session" for identity key `k`: the session lookup
succeeds but yields no list, or an empty list. -/
def SessionMissingP (store : Store) (k : CurveKey) : Prop :=
  store.get_sessions k = .ok none ∨ store.get_sessions k = .ok (some [])

instance (store : Store) (k : CurveKey) : Decidable (SessionMissingP store k) :=
  inferInstanceAs (Decidable (store.get_sessions k = .ok none ∨
    store.get_sessions k = .ok (some [])))

/-- Store well-formedness: no two device records share a (user id, device id)
pair. -/
def StoreWF (store : Store) : Prop :=
  store.devices.Pairwise (fun a b => a.user_id ≠ b.user_id ∨ a.device_id ≠ b.device_id)

instance (store : Store) : Decidable (StoreWF store) :=
  inferInstanceAs (Decidable (store.devices.Pairwise
    (fun a b : Device => a.user_id ≠ b.user_id ∨ a.device_id ≠ b.device_id)))

/-- The requested map carried by a scan result (empty when no request is
needed). -/
def requested_map (res : Option (Uuid × KeysClaimRequest)) : MMap :=
  match res with
  | none => []
  | some (_, req) => req.one_time_keys

/-- A claim-response entry fails at one of the per-entry error points:
device lookup error, device absent, outbound-session creation failure, or
persistence failure. -/
def entry_fails (now : Nat) (st : SessionManagerState) (u : UserId)
    (d : DeviceId) (key : KeyMap) : Prop :=
  (∃ e, st.store.get_readonly_device u d = .error e) ∨
  st.store.get_readonly_device u d = .ok none ∨
  (∃ device, st.store.get_readonly_device u d = .ok (some device) ∧
    ((∃ e, st.account.create_outbound_session now device key = .error e) ∨
     (∃ session, st.account.create_outbound_session now device key = .ok session ∧
       ∃ e, st.store.save_sessions [session] = .error e)))

/-- The sessions currently recorded for identity key `k` (empty when no list
exists). -/
def sessions_at (store : Store) (k : CurveKey) : List Session :=
  (btLookup k store.sessions).getD []

/-- Identity key `k` has a recorded, nonempty session list. -/
def hasSession (store : Store) (k : CurveKey) : Prop :=
  sessions_at store k ≠ []

instance (store : Store) (k : CurveKey) : Decidable (hasSession store k) :=
  inferInstanceAs (Decidable (sessions_at store k ≠ []))

/-- The parts of the world the claim-response handler never changes: the
stored device records, the Store failure knobs, the account and the
pending-claim set. -/
def EnvEq (s t : SessionManagerState) : Prop :=
  t.store.devices = s.store.devices ∧
  t.store.failing_users = s.store.failing_users ∧
  t.store.failing_session_keys = s.store.failing_session_keys ∧
  t.store.failing_device_lookups = s.store.failing_device_lookups ∧
  t.store.failing_save_keys = s.store.failing_save_keys ∧
  t.account = s.account ∧
  t.users_for_key_claim = s.users_for_key_claim

/-- Some device in `devs` has device id `d`, carries a Curve25519 identity
key, and is missing a session for it. -/
def devCond (store : Store) (devs : List Device) (d : DeviceId) : Prop :=
  ∃ dev ∈ devs, dev.device_id = d ∧
    ∃ k, dev.get_key .Curve25519 = some k ∧ SessionMissingP store k

/-- The device-scan phase records `(u, d)`: `u` is a scanned user and one of
its devices with id `d` is missing a session. -/
def userCond (store : Store) (users : List UserId) (u : UserId) (d : DeviceId) : Prop :=
  u ∈ users ∧ devCond store (store.user_devices u) d

/-- `(u, d)` is a pair of the pending-claim set. -/
def pendCond (pending : PairMap) (u : UserId) (d : DeviceId) : Prop :=
  ∃ ds, (u, ds) ∈ pending ∧ d ∈ ds

/-- The keys of an association list are strictly increasing. -/
def keySorted [LT α] (m : List (α × β)) : Prop :=
  m.Pairwise (fun a b => a.1 < b.1)

/-- The missing-session map is ordered lexicographically: strictly sorted by
user id, each inner map strictly sorted by device id. -/
def MMapSorted (m : MMap) : Prop :=
  keySorted m ∧ ∀ p ∈ m, keySorted p.2

/-! ## Concrete states used by witnesses and counterexamples -/

def devD1 : Device := { user_id := 1, device_id := 11, keys := [(.Curve25519, 21)] }

def devD2 : Device := { user_id := 1, device_id := 12, keys := [(.Curve25519, 22)] }

/-- A device without a Curve25519 identity key. -/
def devNoKey : Device := { user_id := 1, device_id := 10, keys := [(.Ed25519, 90)] }

def emptyStore : Store :=
  { devices := [], sessions := [], failing_users := [], failing_session_keys := [],
    failing_device_lookups := [], failing_save_keys := [] }

/-- One user with one claimable device and no sessions. -/
def stA : SessionManagerState :=
  { account := { invalid_keys := [] },
    store := { emptyStore with devices := [devD1, devNoKey] },
    users_for_key_claim := [], wedged_devices := [],
    outgoing_to_device_requests := [], uuid_counter := 0, notifications := [] }

/-- A response granting one key for `devD1`. -/
def respA : KeysClaimResponse :=
  { failures := [], one_time_keys := [(1, [(11, 0)])] }

/-- A state whose device has a session, but whose pending-claim set still
names the pair. -/
def stB : SessionManagerState :=
  { stA with
    store := { emptyStore with
               devices := [devD1],
               sessions := [(21, [{ sender_key := 21, creation_time := 0 }])] },
    users_for_key_claim := [(1, [11])] }

/-- A state whose device has one session of age 61 minutes at `now = 3660`. -/
def stC : SessionManagerState :=
  { stA with
    store := { emptyStore with
               devices := [devD1],
               sessions := [(21, [{ sender_key := 21, creation_time := 0 }])] } }

/-- A wedged pair whose claimed entry succeeds end to end (the dummy message
can be built: the freshly saved session makes the encryption succeed). -/
def stD : SessionManagerState :=
  { stA with
    store := { emptyStore with devices := [devD1] },
    wedged_devices := [(1, [11])] }

/-- A wedged pair whose device is no longer present in the Store. -/
def stE : SessionManagerState :=
  { stA with store := emptyStore, wedged_devices := [(1, [11])] }

/-- A wedged pair whose claimed entry succeeds through persistence, but the
session-list lookup inside the dummy-message encryption fails with a Store
error. -/
def stC5 : SessionManagerState :=
  { stA with
    store := { emptyStore with devices := [devD1], failing_session_keys := [21] },
    wedged_devices := [(1, [11])] }

/-- Two claimable devices, both without sessions. -/
def stC6 : SessionManagerState :=
  { stA with store := { emptyStore with devices := [devD1, devD2] } }

/-! ## Association-list lemmas -/

theorem mem_btInsert [LinearOrder α] {p : α × β} {k : α} {v : β} {m : List (α × β)}
    (h : p ∈ btInsert k v m) : p = (k, v) ∨ p ∈ m := by
  induction m with
  | nil => simpa [btInsert] using h
  | cons q rest ih =>
    obtain ⟨a, b⟩ := q
    simp only [btInsert] at h
    split_ifs at h with h1 h2
    · simpa using h
    · rcases List.mem_cons.mp h with h | h
      · exact Or.inl h
      · exact Or.inr (List.mem_cons_of_mem _ h)
    · rcases List.mem_cons.mp h with h | h
      · exact Or.inr (h ▸ List.mem_cons_self _ _)
      · rcases ih h with h | h
        · exact Or.inl h
        · exact Or.inr (List.mem_cons_of_mem _ h)

theorem btLookup_btInsert [LinearOrder α] (k k' : α) (v : β) (m : List (α × β)) :
    btLookup k (btInsert k' v m) = if k = k' then some v else btLookup k m := by
  induction m with
  | nil => simp [btInsert, btLookup]
  | cons q rest ih =>
    obtain ⟨a, b⟩ := q
    by_cases h1 : k' < a
    · simp only [btInsert, if_pos h1, btLookup]
    · by_cases h2 : k' = a
      · subst h2
        by_cases hk : k = k'
        · subst hk
          simp [btInsert, h1, btLookup]
        · simp [btInsert, h1, btLookup, hk]
      · have hak : a < k' := lt_of_le_of_ne (le_of_not_lt h1) (fun h => h2 h.symm)
        by_cases hka : k = a
        · subst hka
          have hkk : ¬ k = k' := ne_of_lt hak
          simp [btInsert, h1, h2, btLookup, hkk]
        · simp [btInsert, h1, h2, btLookup, hka, ih]

theorem btInsert_idem [LinearOrder α] (k : α) (v : β) (m : List (α × β)) :
    btInsert k v (btInsert k v m) = btInsert k v m := by
  induction m with
  | nil => simp [btInsert]
  | cons q rest ih =>
    obtain ⟨a, b⟩ := q
    by_cases h1 : k < a
    · simp [btInsert, h1, lt_irrefl]
    · by_cases h2 : k = a
      · simp [btInsert, h1, h2, lt_irrefl]
      · simp [btInsert, h1, h2, ih]

theorem btLookup_mem [DecidableEq α] {k : α} {v : β} {m : List (α × β)}
    (h : btLookup k m = some v) : (k, v) ∈ m := by
  induction m with
  | nil => simp [btLookup] at h
  | cons q rest ih =>
    obtain ⟨a, b⟩ := q
    simp only [btLookup] at h
    split_ifs at h with h1
    · subst h1
      cases h
      exact List.mem_cons_self _ _
    · exact List.mem_cons_of_mem _ (ih h)

theorem keySorted_btInsert [LinearOrder α] {m : List (α × β)} (hs : keySorted m)
    (k : α) (v : β) : keySorted (btInsert k v m) := by
  induction m with
  | nil => simp [btInsert, keySorted]
  | cons q rest ih =>
    obtain ⟨a, b⟩ := q
    rw [keySorted, List.pairwise_cons] at hs
    obtain ⟨ha, hrest⟩ := hs
    simp only [btInsert]
    split_ifs with h1 h2
    · refine List.Pairwise.cons ?_ (List.Pairwise.cons ha hrest)
      intro q hq
      rcases List.mem_cons.mp hq with h | h
      · exact h ▸ h1
      · exact lt_trans h1 (ha q h)
    · subst h2
      exact List.Pairwise.cons ha hrest
    · have hak : a < k := lt_of_le_of_ne (le_of_not_lt h1) (fun h => h2 h.symm)
      refine List.Pairwise.cons ?_ (ih hrest)
      intro q hq
      rcases mem_btInsert hq with h | h
      · exact h ▸ hak
      · exact ha q h

theorem btInsert_length_of_lookup_none [LinearOrder α] {k : α} (v : β)
    {m : List (α × β)} (h : btLookup k m = none) :
    (btInsert k v m).length = m.length + 1 := by
  induction m with
  | nil => simp [btInsert]
  | cons q rest ih =>
    obtain ⟨a, b⟩ := q
    simp only [btLookup] at h
    by_cases h1 : k = a
    · rw [if_pos h1] at h
      cases h
    · rw [if_neg h1] at h
      by_cases h2 : k < a
      · simp [btInsert, h2]
      · simp [btInsert, h2, h1, ih h]

theorem lookup2_addPair (u' : UserId) (d' : DeviceId) (m : MMap) (u : UserId)
    (d : DeviceId) :
    lookup2 (addPair u' d' m) u d =
      if u = u' ∧ d = d' then some DeviceKeyAlgorithm.SignedCurve25519
      else lookup2 m u d := by
  by_cases hu : u = u'
  · subst hu
    by_cases hd : d = d'
    · subst hd
      simp [lookup2, addPair, btLookup_btInsert]
    · cases hlu : btLookup u m with
      | none => simp [lookup2, addPair, btLookup_btInsert, hlu, hd, btLookup]
      | some inner => simp [lookup2, addPair, btLookup_btInsert, hlu, hd]
  · simp [lookup2, addPair, btLookup_btInsert, hu]

theorem addPair_idem (u : UserId) (d : DeviceId) (m : MMap) :
    addPair u d (addPair u d m) = addPair u d m := by
  simp [addPair, btLookup_btInsert, btInsert_idem]

theorem MMapSorted_nil : MMapSorted [] := by
  constructor
  · exact List.Pairwise.nil
  · intro p hp
    simp at hp

theorem MMapSorted_addPair {m : MMap} (h : MMapSorted m) (u : UserId) (d : DeviceId) :
    MMapSorted (addPair u d m) := by
  obtain ⟨houter, hinner⟩ := h
  constructor
  · exact keySorted_btInsert houter _ _
  · intro p hp
    rcases mem_btInsert hp with h | h
    · subst h
      refine keySorted_btInsert ?_ _ _
      cases hlu : btLookup u m with
      | none => simp [keySorted]
      | some inner =>
        simpa using hinner (u, inner) (btLookup_mem hlu)
    · exact hinner p h

/-! ## Missing-session scan lemmas -/

theorem sessionMissingP_not_of_cons {store : Store} {k : CurveKey} {a : Session}
    {l : List Session} (hs : store.get_sessions k = .ok (some (a :: l))) :
    ¬ SessionMissingP store k := by
  rintro (h | h) <;> rw [hs] at h <;> simp at h

theorem scan_devices_cons_none {store : Store} {uu : UserId} {dev : Device}
    {rest : List Device} (hk : dev.get_key .Curve25519 = none) (m0 : MMap) :
    scan_devices store uu (dev :: rest) m0 = scan_devices store uu rest m0 := by
  simp [scan_devices, hk]

theorem scan_devices_cons_error {store : Store} {uu : UserId} {dev : Device}
    {rest : List Device} {k : CurveKey} {e : StoreError}
    (hk : dev.get_key .Curve25519 = some k)
    (hs : store.get_sessions k = .error e) (m0 : MMap) :
    scan_devices store uu (dev :: rest) m0 = .error e := by
  simp [scan_devices, hk, hs]

theorem scan_devices_cons_absent {store : Store} {uu : UserId} {dev : Device}
    {rest : List Device} {k : CurveKey}
    (hk : dev.get_key .Curve25519 = some k)
    (hs : store.get_sessions k = .ok none) (m0 : MMap) :
    scan_devices store uu (dev :: rest) m0 =
      scan_devices store uu rest (addPair uu dev.device_id m0) := by
  simp [scan_devices, hk, hs]

theorem scan_devices_cons_nil {store : Store} {uu : UserId} {dev : Device}
    {rest : List Device} {k : CurveKey}
    (hk : dev.get_key .Curve25519 = some k)
    (hs : store.get_sessions k = .ok (some [])) (m0 : MMap) :
    scan_devices store uu (dev :: rest) m0 =
      scan_devices store uu rest (addPair uu dev.device_id m0) := by
  simp [scan_devices, hk, hs]

theorem scan_devices_cons_present {store : Store} {uu : UserId} {dev : Device}
    {rest : List Device} {k : CurveKey} {a : Session} {l : List Session}
    (hk : dev.get_key .Curve25519 = some k)
    (hs : store.get_sessions k = .ok (some (a :: l))) (m0 : MMap) :
    scan_devices store uu (dev :: rest) m0 = scan_devices store uu rest m0 := by
  simp [scan_devices, hk, hs]

theorem scan_devices_lookup {store : Store} {uu : UserId} {devs : List Device} :
    ∀ {m0 m : MMap}, scan_devices store uu devs m0 = .ok m →
    ∀ (u : UserId) (d : DeviceId),
      ((u = uu ∧ devCond store devs d) → lookup2 m u d = some .SignedCurve25519) ∧
      (¬(u = uu ∧ devCond store devs d) → lookup2 m u d = lookup2 m0 u d) := by
  induction devs with
  | nil =>
    intro m0 m h u d
    simp only [scan_devices] at h
    cases h
    refine ⟨?_, fun _ => rfl⟩
    rintro ⟨-, dev, hdev, -⟩
    simp at hdev
  | cons dev rest ih =>
    intro m0 m h u d
    cases hk : dev.get_key .Curve25519 with
    | none =>
      rw [scan_devices_cons_none hk] at h
      constructor
      · rintro ⟨huu, dev', hdev', hdid, k', hk', hmiss⟩
        rcases List.mem_cons.mp hdev' with h' | h'
        · subst h'
          rw [hk] at hk'
          cases hk'
        · exact (ih h u d).1 ⟨huu, dev', h', hdid, k', hk', hmiss⟩
      · intro hnot
        refine (ih h u d).2 ?_
        rintro ⟨huu, dev', h', hdid, k', hk', hmiss⟩
        exact hnot ⟨huu, dev', List.mem_cons_of_mem _ h', hdid, k', hk', hmiss⟩
    | some k =>
      cases hget : store.get_sessions k with
      | error e =>
        rw [scan_devices_cons_error hk hget] at h
        simp at h
      | ok so =>
        have main : SessionMissingP store k →
            scan_devices store uu rest (addPair uu dev.device_id m0) = .ok m →
            ((u = uu ∧ devCond store (dev :: rest) d) →
              lookup2 m u d = some .SignedCurve25519) ∧
            (¬(u = uu ∧ devCond store (dev :: rest) d) →
              lookup2 m u d = lookup2 m0 u d) := by
          intro hmiss0 h
          constructor
          · rintro ⟨huu, dev', hdev', hdid, k', hk', hmiss⟩
            by_cases hr : u = uu ∧ devCond store rest d
            · exact (ih h u d).1 hr
            · rw [(ih h u d).2 hr, lookup2_addPair]
              rcases List.mem_cons.mp hdev' with h' | h'
              · subst h'
                rw [if_pos ⟨huu, hdid.symm⟩]
              · exact absurd ⟨huu, dev', h', hdid, k', hk', hmiss⟩ hr
          · intro hnot
            have hnr : ¬(u = uu ∧ devCond store rest d) := by
              rintro ⟨huu, dev', h', hdid, k', hk', hmiss⟩
              exact hnot ⟨huu, dev', List.mem_cons_of_mem _ h', hdid, k', hk', hmiss⟩
            have hcond : ¬(u = uu ∧ d = dev.device_id) := by
              rintro ⟨huu, hdd⟩
              exact hnot ⟨huu, dev, List.mem_cons_self _ _, hdd.symm, k, hk, hmiss0⟩
            rw [(ih h u d).2 hnr, lookup2_addPair, if_neg hcond]
        rcases so with _ | ss
        · rw [scan_devices_cons_absent hk hget] at h
          exact main (Or.inl hget) h
        · rcases ss with _ | ⟨a, l⟩
          · rw [scan_devices_cons_nil hk hget] at h
            exact main (Or.inr hget) h
          · rw [scan_devices_cons_present hk hget] at h
            have hnm : ¬ SessionMissingP store k := sessionMissingP_not_of_cons hget
            constructor
            · rintro ⟨huu, dev', hdev', hdid, k', hk', hmiss⟩
              rcases List.mem_cons.mp hdev' with h' | h'
              · subst h'
                rw [hk] at hk'
                cases hk'
                exact absurd hmiss hnm
              · exact (ih h u d).1 ⟨huu, dev', h', hdid, k', hk', hmiss⟩
            · intro hnot
              refine (ih h u d).2 ?_
              rintro ⟨huu, dev', h', hdid, k', hk', hmiss⟩
              exact hnot ⟨huu, dev', List.mem_cons_of_mem _ h', hdid, k', hk', hmiss⟩

theorem scan_users_cons_ok {store : Store} {uu : UserId} {rest : List UserId}
    {devs : List Device} {m0 m1 : MMap}
    (hud : store.get_user_devices uu = .ok devs)
    (hsd : scan_devices store uu devs m0 = .ok m1) :
    scan_users store (uu :: rest) m0 = scan_users store rest m1 := by
  simp [scan_users, hud, hsd]

theorem scan_users_lookup {store : Store} {users : List UserId} :
    ∀ {m0 m : MMap}, scan_users store users m0 = .ok m →
    ∀ (u : UserId) (d : DeviceId),
      (userCond store users u d → lookup2 m u d = some .SignedCurve25519) ∧
      (¬ userCond store users u d → lookup2 m u d = lookup2 m0 u d) := by
  induction users with
  | nil =>
    intro m0 m h u d
    simp only [scan_users] at h
    cases h
    refine ⟨?_, fun _ => rfl⟩
    rintro ⟨hu, -⟩
    simp at hu
  | cons uu rest ih =>
    intro m0 m h u d
    cases hud : store.get_user_devices uu with
    | error e => simp [scan_users, hud] at h
    | ok devs =>
      cases hsd : scan_devices store uu devs m0 with
      | error e => simp [scan_users, hud, hsd] at h
      | ok m1 =>
        rw [scan_users_cons_ok hud hsd] at h
        have hdevs : devs = store.user_devices uu := by
          by_cases hf : uu ∈ store.failing_users
          · simp [Store.get_user_devices, hf] at hud
          · simp [Store.get_user_devices, hf] at hud
            exact hud.symm
        subst hdevs
        constructor
        · rintro ⟨hu, hdev⟩
          rcases List.mem_cons.mp hu with h' | h'
          · subst h'
            by_cases hr : userCond store rest u d
            · exact (ih h u d).1 hr
            · rw [(ih h u d).2 hr]
              exact (scan_devices_lookup hsd u d).1 ⟨rfl, hdev⟩
          · exact (ih h u d).1 ⟨h', hdev⟩
        · intro hnot
          have hnr : ¬ userCond store rest u d := by
            rintro ⟨h', hdev⟩
            exact hnot ⟨List.mem_cons_of_mem _ h', hdev⟩
          rw [(ih h u d).2 hnr]
          refine (scan_devices_lookup hsd u d).2 ?_
          rintro ⟨huu, hdev⟩
          subst huu
          exact hnot ⟨List.mem_cons_self _ _, hdev⟩

theorem foldl_addPair_lookup (u' : UserId) (ds : List DeviceId) :
    ∀ (m : MMap) (u : UserId) (d : DeviceId),
      ((u = u' ∧ d ∈ ds) →
        lookup2 (ds.foldl (fun mm dd => addPair u' dd mm) m) u d =
          some .SignedCurve25519) ∧
      (¬(u = u' ∧ d ∈ ds) →
        lookup2 (ds.foldl (fun mm dd => addPair u' dd mm) m) u d = lookup2 m u d) := by
  induction ds with
  | nil =>
    intro m u d
    refine ⟨?_, fun _ => rfl⟩
    rintro ⟨-, hd⟩
    simp at hd
  | cons dd rest ih =>
    intro m u d
    simp only [List.foldl_cons]
    constructor
    · rintro ⟨hu, hd⟩
      rcases List.mem_cons.mp hd with h' | h'
      · by_cases hr : u = u' ∧ d ∈ rest
        · exact (ih (addPair u' dd m) u d).1 hr
        · rw [(ih (addPair u' dd m) u d).2 hr, lookup2_addPair, if_pos ⟨hu, h'⟩]
      · exact (ih (addPair u' dd m) u d).1 ⟨hu, h'⟩
    · intro hnot
      have hnr : ¬(u = u' ∧ d ∈ rest) := by
        rintro ⟨hu, h'⟩
        exact hnot ⟨hu, List.mem_cons_of_mem _ h'⟩
      have hcond : ¬(u = u' ∧ d = dd) := by
        rintro ⟨hu, hdd⟩
        exact hnot ⟨hu, hdd ▸ List.mem_cons_self dd rest⟩
      rw [(ih (addPair u' dd m) u d).2 hnr, lookup2_addPair, if_neg hcond]

theorem add_key_claims_lookup (pending : PairMap) :
    ∀ (m : MMap) (u : UserId) (d : DeviceId),
      (pendCond pending u d →
        lookup2 (add_key_claims pending m) u d = some .SignedCurve25519) ∧
      (¬ pendCond pending u d →
        lookup2 (add_key_claims pending m) u d = lookup2 m u d) := by
  induction pending with
  | nil =>
    intro m u d
    refine ⟨?_, fun _ => rfl⟩
    rintro ⟨ds, hds, -⟩
    simp at hds
  | cons p rest ih =>
    intro m u d
    have heq : add_key_claims (p :: rest) m =
        add_key_claims rest (p.2.foldl (fun mm dd => addPair p.1 dd mm) m) := rfl
    rw [heq]
    constructor
    · rintro ⟨ds, hds, hd⟩
      rcases List.mem_cons.mp hds with h' | h'
      · by_cases hr : pendCond rest u d
        · exact (ih _ u d).1 hr
        · rw [(ih _ u d).2 hr]
          have hps : u = p.1 ∧ d ∈ p.2 := by
            have hp : p = (u, ds) := h'.symm
            subst hp
            exact ⟨rfl, hd⟩
          exact (foldl_addPair_lookup p.1 p.2 m u d).1 hps
      · exact (ih _ u d).1 ⟨ds, h', hd⟩
    · intro hnot
      have hnr : ¬ pendCond rest u d := by
        rintro ⟨ds, h', hd⟩
        exact hnot ⟨ds, List.mem_cons_of_mem _ h', hd⟩
      rw [(ih _ u d).2 hnr]
      refine (foldl_addPair_lookup p.1 p.2 m u d).2 ?_
      rintro ⟨hu, hd⟩
      refine hnot ⟨p.2, ?_, hd⟩
      have hp : (u, p.2) = p := by
        rw [hu]
      exact hp ▸ List.mem_cons_self p rest

theorem foldl_addPair_sorted (u' : UserId) (ds : List DeviceId) :
    ∀ {m : MMap}, MMapSorted m →
      MMapSorted (ds.foldl (fun mm dd => addPair u' dd mm) m) := by
  induction ds with
  | nil => intro m h; exact h
  | cons dd rest ih =>
    intro m h
    exact ih (MMapSorted_addPair h u' dd)

theorem add_key_claims_sorted (pending : PairMap) :
    ∀ {m : MMap}, MMapSorted m → MMapSorted (add_key_claims pending m) := by
  induction pending with
  | nil => intro m h; exact h
  | cons p rest ih =>
    intro m h
    exact ih (foldl_addPair_sorted p.1 p.2 h)

theorem scan_devices_sorted {store : Store} {uu : UserId} {devs : List Device} :
    ∀ {m0 m : MMap}, scan_devices store uu devs m0 = .ok m →
      MMapSorted m0 → MMapSorted m := by
  induction devs with
  | nil =>
    intro m0 m h hs
    simp only [scan_devices] at h
    cases h
    exact hs
  | cons dev rest ih =>
    intro m0 m h hs
    cases hk : dev.get_key .Curve25519 with
    | none =>
      rw [scan_devices_cons_none hk] at h
      exact ih h hs
    | some k =>
      cases hget : store.get_sessions k with
      | error e =>
        rw [scan_devices_cons_error hk hget] at h
        simp at h
      | ok so =>
        rcases so with _ | ss
        · rw [scan_devices_cons_absent hk hget] at h
          exact ih h (MMapSorted_addPair hs uu dev.device_id)
        · rcases ss with _ | ⟨a, l⟩
          · rw [scan_devices_cons_nil hk hget] at h
            exact ih h (MMapSorted_addPair hs uu dev.device_id)
          · rw [scan_devices_cons_present hk hget] at h
            exact ih h hs

theorem scan_users_sorted {store : Store} {users : List UserId} :
    ∀ {m0 m : MMap}, scan_users store users m0 = .ok m →
      MMapSorted m0 → MMapSorted m := by
  induction users with
  | nil =>
    intro m0 m h hs
    simp only [scan_users] at h
    cases h
    exact hs
  | cons uu rest ih =>
    intro m0 m h hs
    cases hud : store.get_user_devices uu with
    | error e => simp [scan_users, hud] at h
    | ok devs =>
      cases hsd : scan_devices store uu devs m0 with
      | error e => simp [scan_users, hud, hsd] at h
      | ok m1 =>
        rw [scan_users_cons_ok hud hsd] at h
        exact ih h (scan_devices_sorted hsd hs)

theorem scan_devices_empty {store : Store} {uu : UserId} {devs : List Device}
    (h : ∀ dev ∈ devs, ∀ k, dev.get_key .Curve25519 = some k →
      k ∉ store.failing_session_keys ∧ hasSession store k) :
    ∀ m0, scan_devices store uu devs m0 = .ok m0 := by
  induction devs with
  | nil => intro m0; rfl
  | cons dev rest ih =>
    intro m0
    have hr : ∀ dev' ∈ rest, ∀ k, dev'.get_key .Curve25519 = some k →
        k ∉ store.failing_session_keys ∧ hasSession store k :=
      fun dev' h' => h dev' (List.mem_cons_of_mem _ h')
    cases hk : dev.get_key .Curve25519 with
    | none =>
      rw [scan_devices_cons_none hk]
      exact ih hr m0
    | some k =>
      obtain ⟨hnf, hhs⟩ := h dev (List.mem_cons_self _ _) k hk
      have hget : store.get_sessions k = .ok (btLookup k store.sessions) := by
        simp [Store.get_sessions, hnf]
      cases hbl : btLookup k store.sessions with
      | none =>
        exact absurd (show sessions_at store k = [] by simp [sessions_at, hbl]) hhs
      | some l =>
        cases l with
        | nil =>
          exact absurd (show sessions_at store k = [] by simp [sessions_at, hbl]) hhs
        | cons a t =>
          have hx : store.get_sessions k = .ok (some (a :: t)) := by
            rw [hget, hbl]
          rw [scan_devices_cons_present hk hx]
          exact ih hr m0

theorem scan_users_empty {store : Store} {users : List UserId}
    (h1 : ∀ u ∈ users, u ∉ store.failing_users)
    (h2 : ∀ u ∈ users, ∀ dev ∈ store.user_devices u, ∀ k,
      dev.get_key .Curve25519 = some k →
      k ∉ store.failing_session_keys ∧ hasSession store k) :
    ∀ m0, scan_users store users m0 = .ok m0 := by
  induction users with
  | nil => intro m0; rfl
  | cons uu rest ih =>
    intro m0
    have hud : store.get_user_devices uu = .ok (store.user_devices uu) := by
      simp [Store.get_user_devices, h1 uu (List.mem_cons_self _ _)]
    rw [scan_users_cons_ok hud (scan_devices_empty (h2 uu (List.mem_cons_self _ _)) m0)]
    exact ih (fun u hu => h1 u (List.mem_cons_of_mem _ hu))
      (fun u hu => h2 u (List.mem_cons_of_mem _ hu)) m0

theorem add_key_claims_empty {pending : PairMap} (h : ∀ p ∈ pending, p.2 = []) :
    ∀ m, add_key_claims pending m = m := by
  induction pending with
  | nil => intro m; rfl
  | cons p rest ih =>
    intro m
    have hp : p.2 = [] := h p (List.mem_cons_self _ _)
    have heq : add_key_claims (p :: rest) m =
        add_key_claims rest (p.2.foldl (fun mm dd => addPair p.1 dd mm) m) := rfl
    rw [heq, hp]
    exact ih (fun q hq => h q (List.mem_cons_of_mem _ hq)) m

/-! ## Store and claim-response lemmas -/

theorem StoreWF.unique {store : Store} (h : StoreWF store) {a b : Device}
    (ha : a ∈ store.devices) (hb : b ∈ store.devices)
    (hu : a.user_id = b.user_id) (hd : a.device_id = b.device_id) : a = b := by
  by_contra hne
  have hsym : Symmetric
      (fun x y : Device => x.user_id ≠ y.user_id ∨ x.device_id ≠ y.device_id) :=
    fun x y hxy => hxy.imp Ne.symm Ne.symm
  rcases List.Pairwise.forall hsym h ha hb hne with h1 | h1
  · exact h1 hu
  · exact h1 hd

theorem mem_user_devices {store : Store} {u : UserId} {dev : Device} :
    dev ∈ store.user_devices u ↔ dev ∈ store.devices ∧ dev.user_id = u := by
  simp [Store.user_devices]

theorem lookup_device_some {store : Store} {u : UserId} {d : DeviceId} {dev : Device}
    (h : store.lookup_device u d = some dev) :
    dev ∈ store.devices ∧ dev.user_id = u ∧ dev.device_id = d := by
  unfold Store.lookup_device at h
  have hm := List.mem_of_find?_eq_some h
  have hp := List.find?_some h
  simp only [decide_eq_true_eq] at hp
  exact ⟨hm, hp.1, hp.2⟩

theorem save_sessions_ok_fields {s : Store} {ss : List Session} {s' : Store}
    (h : s.save_sessions ss = .ok s') :
    s'.devices = s.devices ∧ s'.failing_users = s.failing_users ∧
    s'.failing_session_keys = s.failing_session_keys ∧
    s'.failing_device_lookups = s.failing_device_lookups ∧
    s'.failing_save_keys = s.failing_save_keys := by
  unfold Store.save_sessions at h
  split_ifs at h with h1
  cases h
  exact ⟨rfl, rfl, rfl, rfl, rfl⟩

theorem sessions_at_save_foldl (ss : List Session) :
    ∀ (m : List (CurveKey × List Session)) (k : CurveKey),
      (btLookup k m).getD [] ⊆
        (btLookup k (ss.foldl
          (fun mm sess =>
            btInsert sess.sender_key (((btLookup sess.sender_key mm).getD []) ++ [sess]) mm)
          m)).getD [] := by
  induction ss with
  | nil => intro m k; exact List.Subset.refl _
  | cons sess rest ih =>
    intro m k
    refine List.Subset.trans ?_ (ih _ k)
    rw [btLookup_btInsert]
    by_cases hk : k = sess.sender_key
    · subst hk
      rw [if_pos rfl]
      simp only [Option.getD_some]
      exact List.subset_append_left _ _
    · rw [if_neg hk]
      exact List.Subset.refl _

theorem sessions_at_save {s : Store} {ss : List Session} {s' : Store}
    (h : s.save_sessions ss = .ok s') (k : CurveKey) :
    sessions_at s k ⊆ sessions_at s' k := by
  unfold Store.save_sessions at h
  split_ifs at h with h1
  cases h
  simp only [sessions_at]
  exact sessions_at_save_foldl ss s.sessions k

theorem check_if_unwedged_frame (st : SessionManagerState) (u : UserId) (d : DeviceId) :
    (check_if_unwedged st u d).2.store = st.store ∧
    (check_if_unwedged st u d).2.account = st.account ∧
    (check_if_unwedged st u d).2.users_for_key_claim = st.users_for_key_claim ∧
    (check_if_unwedged st u d).2.notifications = st.notifications := by
  unfold check_if_unwedged
  cases hrem : pairMapRemove st.wedged_devices u d with
  | mk was w' =>
    cases was
    · exact ⟨rfl, rfl, rfl, rfl⟩
    · dsimp only
      cases hdev : Store.get_device { st with wedged_devices := w' }.store u d with
      | error e => exact ⟨rfl, rfl, rfl, rfl⟩
      | ok od =>
        cases od with
        | none => exact ⟨rfl, rfl, rfl, rfl⟩
        | some device =>
          dsimp only
          cases henc : Device.encrypt { st with wedged_devices := w' }.store device
              .Dummy .emptyObject with
          | error e => exact ⟨rfl, rfl, rfl, rfl⟩
          | ok content => exact ⟨rfl, rfl, rfl, rfl⟩

theorem envEq_self (st : SessionManagerState) : EnvEq st st :=
  ⟨rfl, rfl, rfl, rfl, rfl, rfl, rfl⟩

theorem EnvEq.trans {a b c : SessionManagerState} (h : EnvEq a b) (g : EnvEq b c) :
    EnvEq a c := by
  obtain ⟨h1, h2, h3, h4, h5, h6, h7⟩ := h
  obtain ⟨g1, g2, g3, g4, g5, g6, g7⟩ := g
  exact ⟨g1.trans h1, g2.trans h2, g3.trans h3, g4.trans h4, g5.trans h5,
    g6.trans h6, g7.trans h7⟩

theorem receive_entry_frame (now : Nat) (st : SessionManagerState) (u : UserId)
    (d : DeviceId) (key : KeyMap) : EnvEq st (receive_entry now st u d key) := by
  unfold receive_entry
  cases hro : st.store.get_readonly_device u d with
  | error e => exact envEq_self st
  | ok od =>
    cases od with
    | none => exact envEq_self st
    | some device =>
      dsimp only
      cases hcr : st.account.create_outbound_session now device key with
      | error e => exact envEq_self st
      | ok session =>
        dsimp only
        cases hsv : st.store.save_sessions [session] with
        | error e => exact envEq_self st
        | ok store' =>
          show EnvEq st (check_if_unwedged
            { st with store := store',
                      notifications := st.notifications ++ [(u, d)] } u d).2
          obtain ⟨hst, hacc, hufc, -⟩ := check_if_unwedged_frame
            { st with store := store', notifications := st.notifications ++ [(u, d)] } u d
          obtain ⟨hdevs, hf1, hf2, hf3, hf4⟩ := save_sessions_ok_fields hsv
          refine ⟨?_, ?_, ?_, ?_, ?_, ?_, ?_⟩
          · rw [hst]; exact hdevs
          · rw [hst]; exact hf1
          · rw [hst]; exact hf2
          · rw [hst]; exact hf3
          · rw [hst]; exact hf4
          · rw [hacc]
          · rw [hufc]

theorem receive_entry_sessions (now : Nat) (st : SessionManagerState) (u : UserId)
    (d : DeviceId) (key : KeyMap) (k : CurveKey) :
    sessions_at st.store k ⊆ sessions_at (receive_entry now st u d key).store k := by
  unfold receive_entry
  cases hro : st.store.get_readonly_device u d with
  | error e => exact List.Subset.refl _
  | ok od =>
    cases od with
    | none => exact List.Subset.refl _
    | some device =>
      dsimp only
      cases hcr : st.account.create_outbound_session now device key with
      | error e => exact List.Subset.refl _
      | ok session =>
        dsimp only
        cases hsv : st.store.save_sessions [session] with
        | error e => exact List.Subset.refl _
        | ok store' =>
          show sessions_at st.store k ⊆ sessions_at (check_if_unwedged
            { st with store := store',
                      notifications := st.notifications ++ [(u, d)] } u d).2.store k
          rw [(check_if_unwedged_frame
            { st with store := store', notifications := st.notifications ++ [(u, d)] } u d).1]
          exact sessions_at_save hsv k

theorem receive_entry_of_fails {now : Nat} {st : SessionManagerState} {u : UserId}
    {d : DeviceId} {key : KeyMap} (h : entry_fails now st u d key) :
    receive_entry now st u d key = st := by
  unfold receive_entry
  rcases h with ⟨e, he⟩ | he | ⟨device, hdev, ⟨e, he⟩ | ⟨session, hs, e, he⟩⟩
  · rw [he]
  · rw [he]
  · rw [hdev]
    dsimp only
    rw [he]
  · rw [hdev]
    dsimp only
    rw [hs]
    dsimp only
    rw [he]

theorem receive_devices_env (now : Nat) (u : UserId) :
    ∀ (st : SessionManagerState) (qs : List (DeviceId × KeyMap)),
      EnvEq st (receive_devices now u st qs) := by
  intro st qs
  induction qs generalizing st with
  | nil => exact envEq_self st
  | cons q rest ih =>
    exact EnvEq.trans (receive_entry_frame now st u q.1 q.2) (ih _)

theorem receive_users_env (now : Nat) :
    ∀ (st : SessionManagerState) (entries : List (UserId × List (DeviceId × KeyMap))),
      EnvEq st (receive_users now st entries) := by
  intro st entries
  induction entries generalizing st with
  | nil => exact envEq_self st
  | cons p rest ih =>
    exact EnvEq.trans (receive_devices_env now p.1 st p.2) (ih _)

theorem receive_devices_sessions (now : Nat) (u : UserId) :
    ∀ (st : SessionManagerState) (qs : List (DeviceId × KeyMap)) (k : CurveKey),
      sessions_at st.store k ⊆ sessions_at (receive_devices now u st qs).store k := by
  intro st qs k
  induction qs generalizing st with
  | nil => exact List.Subset.refl _
  | cons q rest ih =>
    exact List.Subset.trans (receive_entry_sessions now st u q.1 q.2 k) (ih _)

theorem receive_users_sessions (now : Nat) :
    ∀ (st : SessionManagerState) (entries : List (UserId × List (DeviceId × KeyMap)))
      (k : CurveKey),
      sessions_at st.store k ⊆ sessions_at (receive_users now st entries).store k := by
  intro st entries k
  induction entries generalizing st with
  | nil => exact List.Subset.refl _
  | cons p rest ih =>
    exact List.Subset.trans (receive_devices_sessions now p.1 st p.2 k) (ih _)

theorem hasSession_mono {s t : Store} {k : CurveKey}
    (hsub : sessions_at s k ⊆ sessions_at t k) (h : hasSession s k) : hasSession t k := by
  obtain ⟨x, hx⟩ := List.exists_mem_of_ne_nil _ h
  exact List.ne_nil_of_mem (hsub hx)

theorem receive_entry_success {now : Nat} {st : SessionManagerState} {u : UserId}
    {d : DeviceId} {key : KeyMap} {device : Device} {k : CurveKey}
    (hlk : st.store.lookup_device u d = some device)
    (hknob : (u, d) ∉ st.store.failing_device_lookups)
    (hkey : device.get_key .Curve25519 = some k)
    (hvalid : key ∉ st.account.invalid_keys)
    (hsave : k ∉ st.store.failing_save_keys) :
    hasSession (receive_entry now st u d key).store k := by
  have hro : st.store.get_readonly_device u d = .ok (some device) := by
    simp [Store.get_readonly_device, hknob, hlk]
  have hcr : st.account.create_outbound_session now device key =
      .ok { sender_key := k, creation_time := now } := by
    simp [Account.create_outbound_session, hvalid, hkey]
  have hsv : st.store.save_sessions [{ sender_key := k, creation_time := now }] =
      .ok { st.store with
            sessions := btInsert k
              (((btLookup k st.store.sessions).getD []) ++
                [{ sender_key := k, creation_time := now }])
              st.store.sessions } := by
    unfold Store.save_sessions
    rw [if_neg (by simp [hsave])]
    rfl
  unfold receive_entry
  rw [hro]
  dsimp only
  rw [hcr]
  dsimp only
  rw [hsv]
  dsimp only
  rw [(check_if_unwedged_frame _ u d).1]
  show hasSession { st.store with
      sessions := btInsert k
        (((btLookup k st.store.sessions).getD []) ++
          [{ sender_key := k, creation_time := now }])
        st.store.sessions } k
  simp [hasSession, sessions_at, btLookup_btInsert]

theorem receive_devices_creates {now : Nat} {st0 : SessionManagerState} {u : UserId}
    {qs : List (DeviceId × KeyMap)} :
    ∀ {st : SessionManagerState}, EnvEq st0 st →
    (∀ q ∈ qs, ∃ device k, st0.store.lookup_device u q.1 = some device ∧
      (u, q.1) ∉ st0.store.failing_device_lookups ∧
      device.get_key .Curve25519 = some k ∧ q.2 ∉ st0.account.invalid_keys ∧
      k ∉ st0.store.failing_save_keys) →
    ∀ q ∈ qs, ∃ device k, st0.store.lookup_device u q.1 = some device ∧
      device.get_key .Curve25519 = some k ∧
      hasSession (receive_devices now u st qs).store k := by
  induction qs with
  | nil =>
    intro st henv hsucc q hq
    simp at hq
  | cons q0 rest ih =>
    intro st henv hsucc q hq
    have henv1 : EnvEq st0 (receive_entry now st u q0.1 q0.2) :=
      EnvEq.trans henv (receive_entry_frame now st u q0.1 q0.2)
    rcases List.mem_cons.mp hq with h' | h'
    · subst h'
      obtain ⟨device, k, hlk, hknob, hkey, hvalid, hsave⟩ :=
        hsucc q (List.mem_cons_self _ _)
      have hlk' : st.store.lookup_device u q.1 = some device := by
        unfold Store.lookup_device at hlk ⊢
        rw [henv.1]
        exact hlk
      have hknob' : (u, q.1) ∉ st.store.failing_device_lookups := by
        rw [henv.2.2.2.1]
        exact hknob
      have hvalid' : q.2 ∉ st.account.invalid_keys := by
        rw [henv.2.2.2.2.2.1]
        exact hvalid
      have hsave' : k ∉ st.store.failing_save_keys := by
        rw [henv.2.2.2.2.1]
        exact hsave
      have hsess := @receive_entry_success now st u q.1 q.2 device k hlk' hknob' hkey hvalid' hsave'
      exact ⟨device, k, hlk, hkey,
        hasSession_mono (receive_devices_sessions now u _ rest k) hsess⟩
    · exact ih henv1 (fun q' hq' => hsucc q' (List.mem_cons_of_mem _ hq')) q h'

theorem receive_users_creates {now : Nat} {st0 : SessionManagerState}
    {entries : List (UserId × List (DeviceId × KeyMap))} :
    ∀ {st : SessionManagerState}, EnvEq st0 st →
    (∀ p ∈ entries, ∀ q ∈ p.2, ∃ device k,
      st0.store.lookup_device p.1 q.1 = some device ∧
      (p.1, q.1) ∉ st0.store.failing_device_lookups ∧
      device.get_key .Curve25519 = some k ∧ q.2 ∉ st0.account.invalid_keys ∧
      k ∉ st0.store.failing_save_keys) →
    ∀ p ∈ entries, ∀ q ∈ p.2, ∃ device k,
      st0.store.lookup_device p.1 q.1 = some device ∧
      device.get_key .Curve25519 = some k ∧
      hasSession (receive_users now st entries).store k := by
  induction entries with
  | nil =>
    intro st henv hsucc p hp
    simp at hp
  | cons p0 rest ih =>
    intro st henv hsucc p hp
    have henv1 : EnvEq st0 (receive_devices now p0.1 st p0.2) :=
      EnvEq.trans henv (receive_devices_env now p0.1 st p0.2)
    rcases List.mem_cons.mp hp with h' | h'
    · subst h'
      intro q hq
      obtain ⟨device, k, hlk, hkey, hsess⟩ :=
        receive_devices_creates henv (hsucc p (List.mem_cons_self _ _)) q hq
      exact ⟨device, k, hlk, hkey,
        hasSession_mono (receive_users_sessions now _ rest k) hsess⟩
    · intro q hq
      exact ih henv1 (fun p' hp' => hsucc p' (List.mem_cons_of_mem _ hp')) p h' q hq

theorem get_missing_sessions_spec {st : SessionManagerState} {users : List UserId}
    {res : Option (Uuid × KeysClaimRequest)} {st' : SessionManagerState}
    (h : get_missing_sessions st users = .ok (res, st')) :
    compute_missing st.store st.users_for_key_claim users = .ok (requested_map res) ∧
    (res = none → st' = st) ∧
    (∀ id req, res = some (id, req) →
      id = st.uuid_counter ∧ req.timeout = some KEY_CLAIM_TIMEOUT ∧
      st' = { st with uuid_counter := st.uuid_counter + 1 } ∧
      req.one_time_keys ≠ []) := by
  unfold get_missing_sessions at h
  cases hc : compute_missing st.store st.users_for_key_claim users with
  | error e =>
    rw [hc] at h
    cases h
  | ok M =>
    rw [hc] at h
    dsimp only at h
    by_cases hM : M.isEmpty
    · rw [if_pos hM] at h
      cases h
      have hMnil : M = [] := by
        cases M with
        | nil => rfl
        | cons a l => simp [List.isEmpty] at hM
      refine ⟨?_, fun _ => rfl, ?_⟩
      · rw [hMnil]
        rfl
      · rintro id req ⟨⟩
    · rw [if_neg hM] at h
      cases h
      refine ⟨?_, ?_, ?_⟩
      · rfl
      · rintro ⟨⟩
      · rintro id req ⟨⟩
        refine ⟨rfl, rfl, rfl, ?_⟩
        intro hnil
        rw [show ({ timeout := some KEY_CLAIM_TIMEOUT, one_time_keys := M } :
          KeysClaimRequest).one_time_keys = M from rfl] at hnil
        rw [hnil] at hM
        exact hM rfl

/-! ## The claims -/

/-- C8: The missing-session scan returns "no request needed" (`none`) if and
only if the computed result map is empty; otherwise it returns a newly
allocated request id paired with the map and the fixed 10-second timeout.
The id is the current value of the allocation counter and the counter is
advanced, so the id is unique: it is never handed out again. -/
theorem claim_C8 (st : SessionManagerState) (users : List UserId) (M : MMap)
    (hc : compute_missing st.store st.users_for_key_claim users = .ok M) :
    (get_missing_sessions st users = .ok (none, st) ↔ M = []) ∧
    (M ≠ [] → get_missing_sessions st users =
      .ok (some (st.uuid_counter,
            { timeout := some KEY_CLAIM_TIMEOUT, one_time_keys := M }),
        { st with uuid_counter := st.uuid_counter + 1 })) ∧
    KEY_CLAIM_TIMEOUT = 10 := by
  refine ⟨⟨?_, ?_⟩, ?_, rfl⟩
  · intro h
    unfold get_missing_sessions at h
    rw [hc] at h
    dsimp only at h
    by_cases hM : M.isEmpty = true
    · cases M with
      | nil => rfl
      | cons a l => simp [List.isEmpty] at hM
    · rw [if_neg hM] at h
      cases h
  · intro h
    unfold get_missing_sessions
    rw [hc, h]
    rfl
  · intro h
    have hM : ¬ (M.isEmpty = true) := by
      cases M with
      | nil => exact absurd rfl h
      | cons a l => simp [List.isEmpty]
    unfold get_missing_sessions
    rw [hc]
    dsimp only
    rw [if_neg hM]

/-- Witness for C8: on a store holding one claimable device without a
session, the scan returns the fresh id 0, the singleton map and the
10-second timeout. -/
theorem claim_C8_witness :
    get_missing_sessions stA [1] =
      .ok (some (stA.uuid_counter,
            { timeout := some KEY_CLAIM_TIMEOUT,
              one_time_keys := [(1, [(11, DeviceKeyAlgorithm.SignedCurve25519)])] }),
        { stA with uuid_counter := stA.uuid_counter + 1 }) :=
  (claim_C8 stA [1] [(1, [(11, DeviceKeyAlgorithm.SignedCurve25519)])]
    (by decide)).2.1 (by decide)

/-- C7: calling the missing-session scan twice in a row (so against identical
Store and PendingClaimSet state, the counter aside) produces requests with
identical requested maps and identical timeouts, differing only in the
request id (the ids are distinct); the requested map is deterministically
ordered: strictly sorted by user id, each inner map strictly sorted by
device id. -/
theorem claim_C7 (st : SessionManagerState) (users : List UserId)
    (id1 id2 : Uuid) (req1 req2 : KeysClaimRequest)
    (st1 st2 : SessionManagerState)
    (h1 : get_missing_sessions st users = .ok (some (id1, req1), st1))
    (h2 : get_missing_sessions st1 users = .ok (some (id2, req2), st2)) :
    req1.one_time_keys = req2.one_time_keys ∧ req1.timeout = req2.timeout ∧
    id1 ≠ id2 ∧ MMapSorted req1.one_time_keys := by
  obtain ⟨hc1, -, hsome1⟩ := get_missing_sessions_spec h1
  obtain ⟨hid1, htime1, hst1, -⟩ := hsome1 id1 req1 rfl
  obtain ⟨hc2, -, hsome2⟩ := get_missing_sessions_spec h2
  obtain ⟨hid2, htime2, -, -⟩ := hsome2 id2 req2 rfl
  have hsame : compute_missing st1.store st1.users_for_key_claim users =
      compute_missing st.store st.users_for_key_claim users := by
    rw [hst1]
  rw [hsame, hc1] at hc2
  have hmaps : req1.one_time_keys = req2.one_time_keys := Except.ok.inj hc2
  refine ⟨hmaps, ?_, ?_, ?_⟩
  · rw [htime1, htime2]
  · rw [hid1, hid2, hst1]
    exact Nat.ne_of_lt (Nat.lt_succ_self _)
  · unfold compute_missing at hc1
    cases hs : scan_users st.store users [] with
    | error e =>
      rw [hs] at hc1
      cases hc1
    | ok m1 =>
      rw [hs] at hc1
      dsimp only at hc1
      have hadd := Except.ok.inj hc1
      rw [show requested_map (some (id1, req1)) = req1.one_time_keys from rfl] at hadd
      rw [← hadd]
      exact add_key_claims_sorted _ (scan_users_sorted hs MMapSorted_nil)

/-- Witness for C7: two consecutive scans on the one-missing-device state
yield distinct ids and the sorted singleton map. -/
theorem claim_C7_witness :
    (0 : Uuid) ≠ 1 ∧ MMapSorted [(1, [(11, DeviceKeyAlgorithm.SignedCurve25519)])] :=
  ⟨(claim_C7 stA [1] 0 1
      { timeout := some 10,
        one_time_keys := [(1, [(11, DeviceKeyAlgorithm.SignedCurve25519)])] }
      { timeout := some 10,
        one_time_keys := [(1, [(11, DeviceKeyAlgorithm.SignedCurve25519)])] }
      { stA with uuid_counter := 1 } { stA with uuid_counter := 2 }
      (by decide) (by decide)).2.2.1,
   (claim_C7 stA [1] 0 1
      { timeout := some 10,
        one_time_keys := [(1, [(11, DeviceKeyAlgorithm.SignedCurve25519)])] }
      { timeout := some 10,
        one_time_keys := [(1, [(11, DeviceKeyAlgorithm.SignedCurve25519)])] }
      { stA with uuid_counter := 1 } { stA with uuid_counter := 2 }
      (by decide) (by decide)).2.2.2⟩

/-- C2: every (user, device) pair present in the PendingClaimSet at scan time
appears in the scan's result map with the signed-one-time-key algorithm —
regardless of the device's session state and of whether the device-scan
phase already added it — and adding a pair a second time leaves the map
unchanged (the insertion is idempotent). -/
theorem claim_C2 (st : SessionManagerState) (users : List UserId)
    (res : Option (Uuid × KeysClaimRequest)) (st' : SessionManagerState)
    (u : UserId) (ds : List DeviceId) (d : DeviceId)
    (h : get_missing_sessions st users = .ok (res, st'))
    (hmem : (u, ds) ∈ st.users_for_key_claim) (hd : d ∈ ds) :
    (∃ id req, res = some (id, req) ∧
      lookup2 req.one_time_keys u d = some .SignedCurve25519) ∧
    (∀ m : MMap, addPair u d (addPair u d m) = addPair u d m) := by
  obtain ⟨hc, -, -⟩ := get_missing_sessions_spec h
  unfold compute_missing at hc
  cases hs : scan_users st.store users [] with
  | error e =>
    rw [hs] at hc
    cases hc
  | ok m1 =>
    rw [hs] at hc
    dsimp only at hc
    have hadd := Except.ok.inj hc
    have hlook : lookup2 (requested_map res) u d = some .SignedCurve25519 := by
      rw [← hadd]
      exact (add_key_claims_lookup st.users_for_key_claim m1 u d).1 ⟨ds, hmem, hd⟩
    cases res with
    | none => simp [requested_map, lookup2, btLookup] at hlook
    | some p =>
      exact ⟨⟨p.1, p.2, rfl, hlook⟩, fun m => addPair_idem u d m⟩

/-- Witness for C2: a device with a live session but listed in the
pending-claim set still appears in the request map. -/
theorem claim_C2_witness :
    (∃ id req,
      (some (0, { timeout := some 10,
                  one_time_keys := [(1, [(11, DeviceKeyAlgorithm.SignedCurve25519)])] }) :
        Option (Uuid × KeysClaimRequest)) = some (id, req) ∧
      lookup2 req.one_time_keys 1 11 = some .SignedCurve25519) ∧
    (∀ m : MMap, addPair 1 11 (addPair 1 11 m) = addPair 1 11 m) :=
  claim_C2 stB [1]
    (some (0, { timeout := some 10,
                one_time_keys := [(1, [(11, DeviceKeyAlgorithm.SignedCurve25519)])] }))
    { stB with uuid_counter := 1 } 1 [11] 11 (by decide) (by decide) (by decide)

/-- C1: for every scanned user, a device of that user carrying a Curve25519
identity key is recorded in the scan's result map with the
signed-one-time-key algorithm exactly when the Store has no session list for
that key or the list is empty, and a device without a Curve25519 identity
key is never recorded.  (The pending-claim union, whose unconditional
additions are the subject of C2, is assumed to contribute no pairs.) -/
theorem claim_C1 (st : SessionManagerState) (users : List UserId)
    (res : Option (Uuid × KeysClaimRequest)) (st' : SessionManagerState)
    (u : UserId) (device : Device)
    (h : get_missing_sessions st users = .ok (res, st'))
    (hpend : ∀ p ∈ st.users_for_key_claim, p.2 = [])
    (hwf : StoreWF st.store)
    (hu : u ∈ users) (hdev : device ∈ st.store.user_devices u) :
    (∀ k, device.get_key .Curve25519 = some k →
      (lookup2 (requested_map res) u device.device_id = some .SignedCurve25519 ↔
        SessionMissingP st.store k)) ∧
    (device.get_key .Curve25519 = none →
      lookup2 (requested_map res) u device.device_id = none) := by
  obtain ⟨hc, -, -⟩ := get_missing_sessions_spec h
  unfold compute_missing at hc
  cases hs : scan_users st.store users [] with
  | error e =>
    rw [hs] at hc
    cases hc
  | ok m1 =>
    rw [hs] at hc
    dsimp only at hc
    have hadd := Except.ok.inj hc
    rw [add_key_claims_empty hpend] at hadd
    have huniq : ∀ dev' ∈ st.store.user_devices u,
        dev'.device_id = device.device_id → dev' = device := by
      intro dev' hdev' hid
      have h1 := mem_user_devices.mp hdev'
      have h2 := mem_user_devices.mp hdev
      exact hwf.unique h1.1 h2.1 (h1.2.trans h2.2.symm) hid
    constructor
    · intro k hk
      constructor
      · intro hlook
        rw [← hadd] at hlook
        by_cases hcond : userCond st.store users u device.device_id
        · obtain ⟨-, dev', hdev', hdid, k', hk', hmiss⟩ := hcond
          have hde : dev' = device := huniq dev' hdev' hdid
          subst hde
          rw [hk] at hk'
          cases hk'
          exact hmiss
        · rw [(scan_users_lookup hs u device.device_id).2 hcond] at hlook
          simp [lookup2, btLookup] at hlook
      · intro hmiss
        rw [← hadd]
        exact (scan_users_lookup hs u device.device_id).1
          ⟨hu, device, hdev, rfl, k, hk, hmiss⟩
    · intro hk
      rw [← hadd]
      have hcond : ¬ userCond st.store users u device.device_id := by
        rintro ⟨-, dev', hdev', hdid, k', hk', hmiss⟩
        have hde : dev' = device := huniq dev' hdev' hdid
        subst hde
        rw [hk] at hk'
        cases hk'
      rw [(scan_users_lookup hs u device.device_id).2 hcond]
      rfl

/-- Witness for C1: on the one-missing-device state the recorded entry is
equivalent to the session list being absent or empty, and the keyless
device is not recorded. -/
theorem claim_C1_witness :
    (lookup2 (requested_map (some (0,
        { timeout := some 10,
          one_time_keys := [(1, [(11, DeviceKeyAlgorithm.SignedCurve25519)])] })))
      1 11 = some .SignedCurve25519 ↔ SessionMissingP stA.store 21) ∧
    lookup2 (requested_map (some (0,
        { timeout := some 10,
          one_time_keys := [(1, [(11, DeviceKeyAlgorithm.SignedCurve25519)])] })))
      1 10 = none :=
  ⟨(claim_C1 stA [1]
      (some (0, { timeout := some 10,
                  one_time_keys := [(1, [(11, DeviceKeyAlgorithm.SignedCurve25519)])] }))
      { stA with uuid_counter := 1 } 1 devD1 (by decide) (by decide) (by decide)
      (by decide) (by decide)).1 21 (by decide),
   (claim_C1 stA [1]
      (some (0, { timeout := some 10,
                  one_time_keys := [(1, [(11, DeviceKeyAlgorithm.SignedCurve25519)])] }))
      { stA with uuid_counter := 1 } 1 devNoKey (by decide) (by decide) (by decide)
      (by decide) (by decide)).2 (by decide)⟩

theorem get_device_from_curve_key_some {store : Store} {u : UserId} {k : CurveKey}
    {device : Device} (h : store.get_device_from_curve_key u k = .ok (some device)) :
    device.get_key .Curve25519 = some k ∧ device ∈ store.user_devices u := by
  unfold Store.get_device_from_curve_key at h
  cases hud : store.get_user_devices u with
  | error e =>
    rw [hud] at h
    cases h
  | ok devs =>
    rw [hud] at h
    dsimp only at h
    have hfind := Except.ok.inj h
    have hp := List.find?_some hfind
    simp only [decide_eq_true_eq] at hp
    have hm := List.mem_of_find?_eq_some hfind
    have hdevs : devs = store.user_devices u := by
      by_cases hf : u ∈ store.failing_users
      · simp [Store.get_user_devices, hf] at hud
      · simp [Store.get_user_devices, hf] at hud
        exact hud.symm
    exact ⟨hp, hdevs ▸ hm⟩

theorem mark_device_eval {now : Nat} {st : SessionManagerState} {sender : UserId}
    {curve_key : CurveKey} {device : Device} {sessions : List Session}
    (hdev : st.store.get_device_from_curve_key sender curve_key = .ok (some device))
    (hsess : st.store.get_sessions curve_key = .ok (some sessions)) :
    mark_device_as_wedged now st sender curve_key =
      .ok { st with
            store := { st.store with
                       sessions := btInsert curve_key (sortSessions sessions)
                         st.store.sessions },
            wedged_devices :=
              match (sortSessions sessions).head? with
              | none => st.wedged_devices
              | some oldest =>
                if UNWEDGING_INTERVAL < now - oldest.creation_time
                then pairMapInsert st.wedged_devices device.user_id device.device_id
                else st.wedged_devices } := by
  unfold mark_device_as_wedged
  rw [hdev]
  dsimp only
  rw [(get_device_from_curve_key_some hdev).1]
  dsimp only
  rw [hsess]
  dsimp only
  cases hh : (sortSessions sessions).head? with
  | none => rfl
  | some oldest =>
    dsimp only
    by_cases hcond : UNWEDGING_INTERVAL < now - oldest.creation_time
    · rw [if_pos hcond]
      rw [if_pos hcond]
    · rw [if_neg hcond]
      rw [if_neg hcond]

/-- C4: when the wedging evaluation resolves a device by identity key and the
device has at least one session, the (user, device) pair is inserted into
the WedgedSet exactly when the oldest session's age (the minimum creation
time) exceeds the one-hour unwedging interval; when the device has no
sessions (an empty or absent session list), the WedgedSet is left
unchanged. -/
theorem claim_C4 (now : Nat) (st : SessionManagerState) (sender : UserId)
    (curve_key : CurveKey) (device : Device)
    (hdev : st.store.get_device_from_curve_key sender curve_key = .ok (some device)) :
    (∀ sessions, st.store.get_sessions curve_key = .ok (some sessions) →
      sessions ≠ [] →
      ∃ st' oldest, mark_device_as_wedged now st sender curve_key = .ok st' ∧
        oldest ∈ sessions ∧
        (∀ s ∈ sessions, oldest.creation_time ≤ s.creation_time) ∧
        st'.wedged_devices =
          (if UNWEDGING_INTERVAL < now - oldest.creation_time
           then pairMapInsert st.wedged_devices device.user_id device.device_id
           else st.wedged_devices)) ∧
    ((st.store.get_sessions curve_key = .ok (some []) ∨
      st.store.get_sessions curve_key = .ok none) →
      ∃ st', mark_device_as_wedged now st sender curve_key = .ok st' ∧
        st'.wedged_devices = st.wedged_devices) := by
  constructor
  · intro sessions hsess hne
    have hperm : (sortSessions sessions).Perm sessions :=
      List.perm_insertionSort sessLe sessions
    have hsorted : List.Sorted sessLe (sortSessions sessions) :=
      List.sorted_insertionSort sessLe sessions
    cases hsort : sortSessions sessions with
    | nil =>
      exfalso
      refine hne (List.eq_nil_of_length_eq_zero ?_)
      rw [← hperm.length_eq, hsort]
      rfl
    | cons oldest tl =>
      have hmem : oldest ∈ sessions := by
        refine hperm.mem_iff.mp ?_
        rw [hsort]
        exact List.mem_cons_self _ _
      have hmin : ∀ s ∈ sessions, oldest.creation_time ≤ s.creation_time := by
        intro s hs
        have hs' : s ∈ sortSessions sessions := hperm.mem_iff.mpr hs
        rw [hsort] at hs'
        rcases List.mem_cons.mp hs' with h' | h'
        · rw [h']
        · rw [hsort] at hsorted
          exact List.rel_of_sorted_cons hsorted s h'
      refine ⟨_, oldest, mark_device_eval hdev hsess, hmem, hmin, ?_⟩
      show (match (sortSessions sessions).head? with
        | none => st.wedged_devices
        | some oldest =>
          if UNWEDGING_INTERVAL < now - oldest.creation_time
          then pairMapInsert st.wedged_devices device.user_id device.device_id
          else st.wedged_devices) = _
      rw [hsort]
      rfl
  · intro hdisj
    rcases hdisj with hsess | hsess
    · refine ⟨_, mark_device_eval hdev hsess, ?_⟩
      rfl
    · refine ⟨st, ?_, rfl⟩
      unfold mark_device_as_wedged
      rw [hdev]
      dsimp only
      rw [(get_device_from_curve_key_some hdev).1]
      dsimp only
      rw [hsess]

/-- Witness for C4: a device whose single session is 61 minutes old at
evaluation time is flagged as wedged. -/
theorem claim_C4_witness :
    ∃ st' oldest, mark_device_as_wedged 3660 stC 1 21 = .ok st' ∧
      oldest ∈ [({ sender_key := 21, creation_time := 0 } : Session)] ∧
      (∀ s ∈ [({ sender_key := 21, creation_time := 0 } : Session)],
        oldest.creation_time ≤ s.creation_time) ∧
      st'.wedged_devices =
        (if UNWEDGING_INTERVAL < 3660 - oldest.creation_time
         then pairMapInsert stC.wedged_devices devD1.user_id devD1.device_id
         else stC.wedged_devices) :=
  (claim_C4 3660 stC 1 21 devD1 (by decide)).1
    [{ sender_key := 21, creation_time := 0 }] (by decide) (by decide)

/-- C10: the wedging evaluation writes the device's session list back sorted
ascending by creation time — a state change even though the evaluation is
otherwise a read-only health check; the rest of the Store (session lists
under other keys, the device records) is untouched. -/
theorem claim_C10 (now : Nat) (st : SessionManagerState) (sender : UserId)
    (curve_key : CurveKey) (device : Device) (sessions : List Session)
    (hdev : st.store.get_device_from_curve_key sender curve_key = .ok (some device))
    (hsess : st.store.get_sessions curve_key = .ok (some sessions)) :
    ∃ st', mark_device_as_wedged now st sender curve_key = .ok st' ∧
      btLookup curve_key st'.store.sessions = some (sortSessions sessions) ∧
      List.Sorted sessLe (sortSessions sessions) ∧
      (sortSessions sessions).Perm sessions ∧
      (∀ k', k' ≠ curve_key →
        btLookup k' st'.store.sessions = btLookup k' st.store.sessions) ∧
      st'.store.devices = st.store.devices := by
  refine ⟨_, mark_device_eval hdev hsess, ?_, List.sorted_insertionSort sessLe sessions,
    List.perm_insertionSort sessLe sessions, ?_, rfl⟩
  · show btLookup curve_key
      (btInsert curve_key (sortSessions sessions) st.store.sessions) = _
    rw [btLookup_btInsert, if_pos rfl]
  · intro k' hk'
    show btLookup k'
      (btInsert curve_key (sortSessions sessions) st.store.sessions) = _
    rw [btLookup_btInsert, if_neg hk']

/-- Witness for C10: evaluating the wedging check rewrites the stored session
list to its sorted form and leaves the device records alone. -/
theorem claim_C10_witness :
    ∃ st', mark_device_as_wedged 3660 stC 1 21 = .ok st' ∧
      btLookup 21 st'.store.sessions =
        some (sortSessions [{ sender_key := 21, creation_time := 0 }]) ∧
      List.Sorted sessLe (sortSessions [{ sender_key := 21, creation_time := 0 }]) ∧
      (sortSessions [{ sender_key := 21, creation_time := 0 }]).Perm
        [{ sender_key := 21, creation_time := 0 }] ∧
      (∀ k', k' ≠ 21 → btLookup k' st'.store.sessions = btLookup k' stC.store.sessions) ∧
      st'.store.devices = stC.store.devices :=
  claim_C10 3660 stC 1 21 devD1 [{ sender_key := 21, creation_time := 0 }]
    (by decide) (by decide)

/-- C3: the claim-response handler always reports success to its caller: the
whole batch is processed, per-entry failures (device lookup error, unknown
device, outbound-session creation failure, persistence failure) leave the
manager state unchanged for that entry so the remaining entries proceed,
and sessions already persisted are never removed by later processing (no
rollback). -/
theorem claim_C3 (now : Nat) (st : SessionManagerState) (resp : KeysClaimResponse) :
    receive_keys_claim_response now st resp = .ok (receive_state now st resp) ∧
    (∀ k, sessions_at st.store k ⊆ sessions_at (receive_state now st resp).store k) ∧
    (∀ (st0 : SessionManagerState) (u : UserId) (d : DeviceId) (key : KeyMap),
      entry_fails now st0 u d key → receive_entry now st0 u d key = st0) := by
  refine ⟨rfl, ?_, ?_⟩
  · intro k
    exact receive_users_sessions now st resp.one_time_keys k
  · intro st0 u d key h
    exact receive_entry_of_fails h

/-- Witness for C3: the handler returns success on a concrete response, and a
concrete entry whose device is unknown leaves the state untouched. -/
theorem claim_C3_witness :
    receive_keys_claim_response 0 stA respA = .ok (receive_state 0 stA respA) ∧
    receive_entry 0 stE 1 11 0 = stE :=
  ⟨(claim_C3 0 stA respA).1,
   (claim_C3 0 stE respA).2.2 stE 1 11 0 (Or.inr (Or.inl (by decide)))⟩

theorem pairMapRemove_found {w : PairMap} {u : UserId} {d : DeviceId}
    (h : pairMapContains w u d = true) :
    ∃ ds, btLookup u w = some ds ∧ d ∈ ds ∧
      pairMapRemove w u d =
        (true, btInsert u (ds.filter (fun x => decide (x ≠ d))) w) := by
  unfold pairMapContains at h
  cases hbl : btLookup u w with
  | none =>
    rw [hbl] at h
    cases h
  | some ds =>
    rw [hbl] at h
    simp only [decide_eq_true_eq] at h
    refine ⟨ds, rfl, h, ?_⟩
    unfold pairMapRemove
    rw [hbl]
    dsimp only
    rw [if_pos h]

theorem pairMapContains_insert_filter (w : PairMap) (u : UserId) (d : DeviceId)
    (ds : List DeviceId) :
    pairMapContains (btInsert u (ds.filter (fun x => decide (x ≠ d))) w) u d = false := by
  unfold pairMapContains
  rw [btLookup_btInsert, if_pos rfl]
  simp [List.mem_filter]

theorem btLookup_none_of_forall [DecidableEq α] {m : List (α × β)} {c : α}
    (h : ∀ p ∈ m, p.1 ≠ c) : btLookup c m = none := by
  induction m with
  | nil => rfl
  | cons q rest ih =>
    obtain ⟨a, b⟩ := q
    have ha : ¬ c = a := fun hc => h (a, b) (List.mem_cons_self _ _) hc.symm
    simp only [btLookup, if_neg ha]
    exact ih (fun p hp => h p (List.mem_cons_of_mem _ hp))

/-- C9: the unwedging step removes the (user, device) pair from the WedgedSet
before fetching the device and building the dummy message, so when the
device is gone from the Store, the Store lookup errors, or the dummy
encryption fails, the pair stays removed and nothing is enqueued — the
removal is not rolled back. -/
theorem claim_C9 (st : SessionManagerState) (u : UserId) (d : DeviceId)
    (hw : pairMapContains st.wedged_devices u d = true)
    (herr : st.store.get_device u d = .ok none ∨
            (∃ e, st.store.get_device u d = .error e) ∨
            (∃ device, st.store.get_device u d = .ok (some device) ∧
              ∃ e, Device.encrypt st.store device .Dummy .emptyObject = .error e)) :
    pairMapContains (check_if_unwedged st u d).2.wedged_devices u d = false ∧
    (check_if_unwedged st u d).2.outgoing_to_device_requests =
      st.outgoing_to_device_requests := by
  obtain ⟨ds, hbl, hd, hrem⟩ := pairMapRemove_found hw
  unfold check_if_unwedged
  rw [hrem]
  dsimp only
  rcases herr with he | ⟨e, he⟩ | ⟨device, he, e, henc⟩
  · rw [he]
    exact ⟨pairMapContains_insert_filter _ _ _ _, rfl⟩
  · rw [he]
    exact ⟨pairMapContains_insert_filter _ _ _ _, rfl⟩
  · rw [he]
    dsimp only
    rw [henc]
    exact ⟨pairMapContains_insert_filter _ _ _ _, rfl⟩

/-- Witness for C9: a wedged pair whose device is absent from the Store is
removed without enqueueing anything. -/
theorem claim_C9_witness :
    pairMapContains (check_if_unwedged stE 1 11).2.wedged_devices 1 11 = false ∧
    (check_if_unwedged stE 1 11).2.outgoing_to_device_requests =
      stE.outgoing_to_device_requests :=
  claim_C9 stE 1 11 (by decide) (Or.inl (by decide))

/-- C5 counterexample: for the state `stC5` the pair (1, 11) is wedged and
the claim-response entry succeeds end to end — the session is created and
persisted — yet no dummy OutgoingRequest is inserted (the Outgoing Queue
stays empty), because the Store errors during the dummy encryption's
session lookup.  The claim's wedged branch ("it is removed and exactly one
dummy OutgoingRequest ... is inserted") is therefore false as stated; only
the removal happens. -/
theorem claim_C5_counterexample :
    pairMapContains stC5.wedged_devices 1 11 = true ∧
    stC5.store.get_readonly_device 1 11 = .ok (some devD1) ∧
    stC5.account.create_outbound_session 0 devD1 0 =
      .ok { sender_key := 21, creation_time := 0 } ∧
    stC5.store.save_sessions [{ sender_key := 21, creation_time := 0 }] =
      .ok { stC5.store with
            sessions := [(21, [{ sender_key := 21, creation_time := 0 }])] } ∧
    (receive_entry 0 stC5 1 11 0).outgoing_to_device_requests =
      stC5.outgoing_to_device_requests ∧
    pairMapContains (receive_entry 0 stC5 1 11 0).wedged_devices 1 11 = false := by
  decide

/-- C5 (amended): after the handler successfully creates and persists a new
session for a (user, device) pair: if the pair was not in the WedgedSet,
the Outgoing Queue and the WedgedSet are left unchanged; if it was in the
WedgedSet it is removed, and — provided the dummy payload encrypts
successfully against the post-save Store — exactly one dummy
OutgoingRequest carrying a fresh request id (the counter value, absent from
the queue whenever all queued ids predate it), wrapped as a room-encrypted
to-device message targeted at that device, is inserted into the Outgoing
Queue; if fetching the device or encrypting the dummy fails, nothing is
enqueued while the removal persists (see C9). -/
theorem claim_C5_amended (now : Nat) (st : SessionManagerState) (u : UserId)
    (d : DeviceId) (key : KeyMap) (device : Device) (session : Session)
    (store' : Store)
    (hro : st.store.get_readonly_device u d = .ok (some device))
    (hcr : st.account.create_outbound_session now device key = .ok session)
    (hsv : st.store.save_sessions [session] = .ok store') :
    (pairMapContains st.wedged_devices u d = false →
      (receive_entry now st u d key).outgoing_to_device_requests =
        st.outgoing_to_device_requests ∧
      (receive_entry now st u d key).wedged_devices = st.wedged_devices) ∧
    (pairMapContains st.wedged_devices u d = true →
      pairMapContains (receive_entry now st u d key).wedged_devices u d = false ∧
      (∀ ct, Device.encrypt store' device .Dummy .emptyObject = .ok ct →
        (receive_entry now st u d key).outgoing_to_device_requests =
          btInsert st.uuid_counter
            { request_id := st.uuid_counter,
              request := { event_type := .RoomEncrypted, txn_id := st.uuid_counter,
                           messages := [(device.user_id,
                             [(.deviceId device.device_id, ct)])] } }
            st.outgoing_to_device_requests ∧
        ((∀ p ∈ st.outgoing_to_device_requests, p.1 < st.uuid_counter) →
          btLookup st.uuid_counter st.outgoing_to_device_requests = none))) := by
  have hfields := save_sessions_ok_fields hsv
  have hro' : store'.get_readonly_device u d = .ok (some device) := by
    unfold Store.get_readonly_device Store.lookup_device at hro ⊢
    rw [hfields.2.2.2.1, hfields.1]
    exact hro
  have hdev' : store'.get_device u d = .ok (some device) := hro'
  unfold receive_entry
  rw [hro]
  dsimp only
  rw [hcr]
  dsimp only
  rw [hsv]
  dsimp only
  constructor
  · intro hnw
    have hrem : pairMapRemove st.wedged_devices u d = (false, st.wedged_devices) := by
      unfold pairMapContains at hnw
      unfold pairMapRemove
      cases hbl : btLookup u st.wedged_devices with
      | none => rfl
      | some ds =>
        rw [hbl] at hnw
        simp only [decide_eq_true_eq] at hnw
        dsimp only
        rw [if_neg (by simpa using hnw)]
    unfold check_if_unwedged
    rw [hrem]
    exact ⟨rfl, rfl⟩
  · intro hw
    obtain ⟨ds, hbl, hd, hrem⟩ := pairMapRemove_found hw
    unfold check_if_unwedged
    rw [hrem]
    dsimp only
    rw [hdev']
    dsimp only
    constructor
    · cases henc : Device.encrypt store' device .Dummy .emptyObject with
      | error e => exact pairMapContains_insert_filter _ _ _ _
      | ok ct => exact pairMapContains_insert_filter _ _ _ _
    · intro ct hct
      rw [hct]
      refine ⟨rfl, ?_⟩
      intro hwfq
      exact btLookup_none_of_forall (fun p hp => Nat.ne_of_lt (hwfq p hp))

/-- Witness for C5: on the wedged state `stD` the successful entry removes
the pair and enqueues exactly the dummy request for device (1, 11) under the
fresh id 0. -/
theorem claim_C5_witness :
    pairMapContains (receive_entry 0 stD 1 11 0).wedged_devices 1 11 = false ∧
    (receive_entry 0 stD 1 11 0).outgoing_to_device_requests =
      btInsert stD.uuid_counter
        { request_id := stD.uuid_counter,
          request := { event_type := .RoomEncrypted, txn_id := stD.uuid_counter,
                       messages := [(devD1.user_id,
                         [(.deviceId devD1.device_id,
                           { event_type := .Dummy, payload := .emptyObject,
                             recipient := 1, recipient_device := 11 })])] } }
        stD.outgoing_to_device_requests := by
  have h := (claim_C5_amended 0 stD 1 11 0 devD1 { sender_key := 21, creation_time := 0 }
    { stD.store with sessions := [(21, [{ sender_key := 21, creation_time := 0 }])] }
    (by decide) (by decide) (by decide)).2 (by decide)
  exact ⟨h.1,
    (h.2 { event_type := .Dummy, payload := .emptyObject,
           recipient := 1, recipient_device := 11 } (by decide)).1⟩

/-- C6 counterexample: in `stC6` user 1 has two sessionless claimable
devices; the response covers only device 11 and its single entry is handled
successfully (the session is persisted under key 21), yet the subsequent
scan over the same users returns a request (for device 12), not "no request
needed". -/
theorem claim_C6_counterexample :
    btLookup 21 (receive_state 0 stC6 respA).store.sessions =
      some [{ sender_key := 21, creation_time := 0 }] ∧
    get_missing_sessions (receive_state 0 stC6 respA) [1] =
      .ok (some (0, { timeout := some 10,
                      one_time_keys := [(1, [(12, DeviceKeyAlgorithm.SignedCurve25519)])] }),
        { receive_state 0 stC6 respA with uuid_counter := 1 }) := by
  decide

/-- C6 (amended): after the handler successfully processes every entry of a
response, a subsequent missing-session scan over the response's users
returns "no request needed" — provided the PendingClaimSet contributes no
pairs, every device of those users that carries a Curve25519 key and lacks
a session is covered by the response, and the scan's own Store lookups do
not error. -/
theorem claim_C6_amended (now : Nat) (st : SessionManagerState)
    (resp : KeysClaimResponse)
    (hwf : StoreWF st.store)
    (hpend : ∀ p ∈ st.users_for_key_claim, p.2 = [])
    (hsucc : ∀ p ∈ resp.one_time_keys, ∀ q ∈ p.2, ∃ device k,
      st.store.lookup_device p.1 q.1 = some device ∧
      (p.1, q.1) ∉ st.store.failing_device_lookups ∧
      device.get_key .Curve25519 = some k ∧ q.2 ∉ st.account.invalid_keys ∧
      k ∉ st.store.failing_save_keys)
    (hcover : ∀ p ∈ resp.one_time_keys, ∀ dev ∈ st.store.user_devices p.1, ∀ k,
      dev.get_key .Curve25519 = some k → ¬ hasSession st.store k →
      ∃ q ∈ p.2, q.1 = dev.device_id)
    (hio1 : ∀ p ∈ resp.one_time_keys, p.1 ∉ st.store.failing_users)
    (hio2 : ∀ p ∈ resp.one_time_keys, ∀ dev ∈ st.store.user_devices p.1, ∀ k,
      dev.get_key .Curve25519 = some k → k ∉ st.store.failing_session_keys) :
    get_missing_sessions (receive_state now st resp)
      (resp.one_time_keys.map Prod.fst) =
      .ok (none, receive_state now st resp) := by
  have henv : EnvEq st (receive_state now st resp) :=
    receive_users_env now st resp.one_time_keys
  have husers : ∀ u ∈ resp.one_time_keys.map Prod.fst,
      u ∉ (receive_state now st resp).store.failing_users := by
    intro u hu
    rw [henv.2.1]
    obtain ⟨p, hp, hpu⟩ := List.mem_map.mp hu
    exact hpu ▸ hio1 p hp
  have huserdev : ∀ u, (receive_state now st resp).store.user_devices u =
      st.store.user_devices u := by
    intro u
    unfold Store.user_devices
    rw [henv.1]
  have hdev2 : ∀ u ∈ resp.one_time_keys.map Prod.fst,
      ∀ dev ∈ (receive_state now st resp).store.user_devices u, ∀ k,
      dev.get_key .Curve25519 = some k →
      k ∉ (receive_state now st resp).store.failing_session_keys ∧
      hasSession (receive_state now st resp).store k := by
    intro u hu dev hdev k hk
    rw [huserdev] at hdev
    obtain ⟨p, hp, hpu⟩ := List.mem_map.mp hu
    subst hpu
    constructor
    · rw [henv.2.2.1]
      exact hio2 p hp dev hdev k hk
    · by_cases hhs : hasSession st.store k
      · exact hasSession_mono (receive_users_sessions now st resp.one_time_keys k) hhs
      · obtain ⟨q, hq, hqd⟩ := hcover p hp dev hdev k hk hhs
        obtain ⟨device, k', hlk, hkey, hsess⟩ :=
          receive_users_creates (envEq_self st) hsucc p hp q hq
        obtain ⟨hmemdev, hud, hdd⟩ := lookup_device_some hlk
        have hdevmem := mem_user_devices.mp hdev
        have hde : device = dev :=
          hwf.unique hmemdev hdevmem.1 (hud.trans hdevmem.2.symm) (hdd.trans hqd)
        rw [hde, hk] at hkey
        cases hkey
        exact hsess
  have hscan := scan_users_empty husers hdev2 []
  have hpend' : ∀ p ∈ (receive_state now st resp).users_for_key_claim, p.2 = [] := by
    rw [henv.2.2.2.2.2.2]
    exact hpend
  unfold get_missing_sessions compute_missing
  rw [hscan]
  dsimp only
  rw [add_key_claims_empty hpend']
  rfl

/-- Witness for C6 (amended): handling the response for the only sessionless
device of `stA` makes the follow-up scan return "no request needed". -/
theorem claim_C6_witness :
    get_missing_sessions (receive_state 0 stA respA) [1] =
      .ok (none, receive_state 0 stA respA) := by
  have hsucc : ∀ p ∈ respA.one_time_keys, ∀ q ∈ p.2, ∃ device k,
      stA.store.lookup_device p.1 q.1 = some device ∧
      (p.1, q.1) ∉ stA.store.failing_device_lookups ∧
      device.get_key .Curve25519 = some k ∧ q.2 ∉ stA.account.invalid_keys ∧
      k ∉ stA.store.failing_save_keys := by
    intro p hp q hq
    simp only [respA, List.mem_singleton] at hp
    subst hp
    simp only [List.mem_singleton] at hq
    subst hq
    exact ⟨devD1, 21, by decide, by decide, by decide, by decide, by decide⟩
  have hcover : ∀ p ∈ respA.one_time_keys, ∀ dev ∈ stA.store.user_devices p.1, ∀ k,
      dev.get_key .Curve25519 = some k → ¬ hasSession stA.store k →
      ∃ q ∈ p.2, q.1 = dev.device_id := by
    intro p hp dev hdev k hk hmiss
    simp only [respA, List.mem_singleton] at hp
    subst hp
    have hud : stA.store.user_devices 1 = [devD1, devNoKey] := by decide
    rw [hud] at hdev
    rcases List.mem_cons.mp hdev with h1 | h1
    · subst h1
      exact ⟨(11, 0), List.mem_cons_self _ _, rfl⟩
    · rcases List.mem_cons.mp h1 with h2 | h2
      · subst h2
        rw [show devNoKey.get_key .Curve25519 = none from rfl] at hk
        cases hk
      · simp at h2
  have hio2 : ∀ p ∈ respA.one_time_keys, ∀ dev ∈ stA.store.user_devices p.1, ∀ k,
      dev.get_key .Curve25519 = some k → k ∉ stA.store.failing_session_keys := by
    intro p hp dev hdev k hk
    simp [stA, emptyStore]
  exact claim_C6_amended 0 stA respA (by decide) (by simp [stA]) hsucc hcover
    (by decide) hio2

/-- C1 counterexample: in `stB` device (1, 11) carries identity key 21 and
has a live (nonempty) session list, so it is not "missing a session" — yet
it is recorded in the scan's result map with the signed-one-time-key
algorithm, because the pair sits in the PendingClaimSet.  The
claim's "if and only if", read against the scan's returned map, is
therefore false as stated. -/
theorem claim_C1_counterexample :
    devD1 ∈ stB.store.user_devices 1 ∧
    devD1.get_key .Curve25519 = some 21 ∧
    ¬ SessionMissingP stB.store 21 ∧
    get_missing_sessions stB [1] =
      .ok (some (0, { timeout := some 10,
                      one_time_keys := [(1, [(11, DeviceKeyAlgorithm.SignedCurve25519)])] }),
        { stB with uuid_counter := 1 }) ∧
    lookup2 [(1, [(11, DeviceKeyAlgorithm.SignedCurve25519)])] 1 devD1.device_id =
      some .SignedCurve25519 := by
  decide
